import Mathlib

/-!
Verification of the seating layout and assignment engine of the `paizhuo`
repository (src/src/components/FloorPlan.vue).  The JavaScript numbers are
modelled as exact rationals, seat and guest objects as Lean structures, and
the in-place mutations of the Vue component as pure state-passing functions.
Seat and guest objects are identified by their `id` fields (unique in every
layout the generator produces); an update of one object is modelled as a
map over the collection that rewrites the element carrying that id.
-/

namespace Paizhuo

/-! ## Row packer (generateSeats, lines 1062–1115)

All widths are the pixel-scaled local variables of `generateSeats`
(`sectionWidth`, `seatUnitWidth`, `seatSpacingX`, `aisleWidth`).  `u` always
denotes `seatUnitWidth = seatWidth + seatSpacingX`.
-/

/-- Number of seat blocks for a candidate seat count `n`, as the source
computes it: `Math.ceil(trySeats / maxContinuousSeats)` (real division, then
ceiling).  `mc` is `maxContinuousSeats`, positive by the configuration
invariant. -/
def numBlocks (n mc : ℕ) : ℕ := (Int.ceil ((n : ℚ) / (mc : ℚ))).toNat

/-- Number of aisles: `numBlocks - 1`. -/
def numAisles (n mc : ℕ) : ℕ := numBlocks n mc - 1

/-- Minimum width needed by `n` seats with their aisles:
`trySeats * seatUnitWidth - seatSpacingX + numAisles * aisleWidth`. -/
def requiredWidth (u sp aw : ℚ) (mc n : ℕ) : ℚ :=
  ((n : ℚ) * u - sp) + (numAisles n mc : ℚ) * aw

/-- The loop's acceptance test: `minTotalWidth <= sectionWidth`. -/
def fitsRow (w u sp aw : ℚ) (mc : ℕ) (n : ℕ) : Bool :=
  decide (requiredWidth u sp aw mc n ≤ w)

/-- Maximal seat count with zero aisles:
`Math.floor((sectionWidth + seatSpacingX) / seatUnitWidth)`. -/
def maxSeatsNoAisle (w u sp : ℚ) : ℕ := (Int.floor ((w + sp) / u)).toNat

/-- Downward-scan step: `maxSeatsWithoutAisles > 100 ? Math.max(1,
Math.floor(maxSeatsWithoutAisles / 50)) : 1`. -/
def scanStep (t0 : ℕ) : ℕ := if 100 < t0 then max 1 (t0 / 50) else 1

/-- The `while (trySeats >= 1 && tries < maxTries)` search loop.  `fuel` is
the number of probes still allowed (`maxTries - tries`, initially 50);
the result is the accepted `trySeats`, or `none` if the loop exits. -/
def scanGo (w u sp aw : ℚ) (mc step : ℕ) : ℕ → ℕ → Option ℕ
  | _, 0 => none
  | t, fuel + 1 =>
    if t = 0 then none
    else if fitsRow w u sp aw mc t then some t
    else scanGo w u sp aw mc step (t - step) fuel

/-- The list of candidate counts the loop probes, in scan order. -/
def scanList (step : ℕ) : ℕ → ℕ → List ℕ
  | _, 0 => []
  | t, fuel + 1 => if t = 0 then [] else t :: scanList step (t - step) fuel

/-- The full search: start at `maxSeatsNoAisle`, 50 probes of fuel. -/
def findSeatCount (w u sp aw : ℚ) (mc : ℕ) : Option ℕ :=
  scanGo w u sp aw mc (scanStep (maxSeatsNoAisle w u sp)) (maxSeatsNoAisle w u sp) 50

/-- The row packer: seat count and aisle widths for one row
(`generateSeats` lines 1062–1115, including the single-seat fallback).
Leftover width is spread evenly over the aisles at acceptance time. -/
def packRow (w sw sp aw : ℚ) (mc : ℕ) : ℕ × List ℚ :=
  match findSeatCount w (sw + sp) sp aw mc with
  | some n =>
      if 0 < numAisles n mc then
        (n, List.replicate (numAisles n mc)
          (aw + (w - requiredWidth (sw + sp) sp aw mc n) / (numAisles n mc : ℚ)))
      else (n, [])
  | none => if sw ≤ w then (1, []) else (0, [])

/-! ## Block layout and boundary adjustment (generateSeats, lines 1117–1310) -/

/-- One seat of a laid-out row: 1-based column number and x position. -/
structure RowSeat where
  col : ℕ
  x : ℚ
deriving DecidableEq, Repr

/-- Block split (lines 1118–1126): `numBlocks` blocks of
`Math.min(remainingSeats, maxContinuousSeats)` seats each. -/
def seatsPerBlock : ℕ → ℕ → ℕ → List ℕ
  | 0, _, _ => []
  | k + 1, rem, mc => min rem mc :: seatsPerBlock k (rem - min rem mc) mc

/-- JavaScript `xs[i] || d`: both a missing entry and a `0` entry fall back
to the default `d`. -/
def jsOrQ (o : Option ℚ) (d : ℚ) : ℚ :=
  match o with
  | some q => if q = 0 then d else q
  | none => d

/-- Seats of one block: `seatX = currentX + seatInBlock * seatUnitWidth`. -/
def blockSeats (u x : ℚ) (col b : ℕ) : List RowSeat :=
  (List.range b).map fun j => ⟨col + j, x + (j : ℚ) * u⟩

/-- The block layout loop (lines 1129–1173): lay each block at unit stride,
advance `currentX` by `seatsInBlock * seatUnitWidth - seatSpacingX`, and add
`aisleWidths[blockIndex] || d` between consecutive blocks.  Returns the row's
seats and the final `currentX`. -/
def layoutBlocks (u sp d : ℚ) : List ℕ → List ℚ → ℚ → ℕ → List RowSeat × ℚ
  | [], _, x, _ => ([], x)
  | [b], _, x, col => (blockSeats u x col b, x + (b : ℚ) * u - sp)
  | b :: b2 :: rest, aisles, x, col =>
      let out := layoutBlocks u sp d (b2 :: rest) aisles.tail
        (x + (b : ℚ) * u - sp + jsOrQ aisles.head? d) (col + b)
      (blockSeats u x col b ++ out.1, out.2)

/-- The row regeneration applied when the laid-out right edge misses the
section boundary by more than 0.01 (lines 1179–1306): with several blocks the
residual is added evenly to the aisle widths; with one block of more than one
seat the seats are re-spaced uniformly with
`(sectionWidth - n*seatWidth)/(n-1)`; with one block of one seat the seat is
left-aligned.  `n` is `bestSeatCount`, `nb` is `numBlocks`, `blocks` the
block split, `ws` the packed aisle widths and `adj` the residual
`sectionWidth - totalOccupiedWidth`. -/
def regenerateRow (sectionLeft w sw u sp aw : ℚ) (n nb : ℕ) (blocks : List ℕ)
    (ws : List ℚ) (adj : ℚ) : List RowSeat × ℚ :=
  if 1 < nb then
    layoutBlocks u sp (aw + adj / ((nb : ℚ) - 1)) blocks
      (ws.map (fun q => q + adj / ((nb : ℚ) - 1))) sectionLeft 1
  else if nb = 1 ∧ 1 < n then
    ((List.range n).map
        (fun i => ⟨i + 1, sectionLeft + (i : ℚ) * (sw + (w - (n : ℚ) * sw) / ((n : ℚ) - 1))⟩),
      sectionLeft + (n : ℚ) * sw + ((n : ℚ) - 1) * ((w - (n : ℚ) * sw) / ((n : ℚ) - 1)))
  else if nb = 1 ∧ n = 1 then
    ([⟨1, sectionLeft⟩], sectionLeft + sw)
  else ([], sectionLeft)

/-- Layout-and-adjust for one packed row (lines 1117–1306): lay the blocks
out, and regenerate the row if the right edge misses the boundary by more
than 0.01. -/
def layoutRow (sectionLeft w sw sp aw : ℚ) (mc n : ℕ) (ws : List ℚ) : List RowSeat × ℚ :=
  if 1/100 < |w - ((layoutBlocks (sw + sp) sp aw (seatsPerBlock (numBlocks n mc) n mc) ws
      sectionLeft 1).2 - sectionLeft)| then
    regenerateRow sectionLeft w sw (sw + sp) sp aw n (numBlocks n mc)
      (seatsPerBlock (numBlocks n mc) n mc) ws
      (w - ((layoutBlocks (sw + sp) sp aw (seatsPerBlock (numBlocks n mc) n mc) ws
        sectionLeft 1).2 - sectionLeft))
  else
    layoutBlocks (sw + sp) sp aw (seatsPerBlock (numBlocks n mc) n mc) ws sectionLeft 1

/-- One full row of `generateSeats`: pack the row (with its single-seat
fallback folded into `packRow`), skip the row when the count is zero, else
lay out and adjust. -/
def generateRow (sectionLeft w sw sp aw : ℚ) (mc : ℕ) : List RowSeat × ℚ :=
  if (packRow w sw sp aw mc).1 = 0 then ([], sectionLeft)
  else layoutRow sectionLeft w sw sp aw mc (packRow w sw sp aw mc).1 (packRow w sw sp aw mc).2

/-- Vertical space one section consumes after its rows (line 1310):
`rows*seatLength + (rows-1)*seatFrontBackSpacing`, evaluated with JavaScript
arithmetic (`rows - 1` can be `-1`, hence the cast to ℚ). -/
def sectionAdvance (rows : ℕ) (sl sy : ℚ) : ℚ :=
  (rows : ℚ) * sl + ((rows : ℚ) - 1) * sy

/-- One section of `generateSeats` (lines 1039–1311): the gap
`previousSectionDistance` is added first, each row `r` is laid out at
`rowY = currentY + r*(seatLength + seatFrontBackSpacing)`, and the cursor
then advances by the full section height whether or not rows were skipped. -/
def generateSection (sectionLeft w sw sp aw : ℚ) (mc rows : ℕ)
    (startY prevDist sl sy : ℚ) : List (ℚ × List RowSeat) × ℚ :=
  ((List.range rows).map
      (fun r => (startY + prevDist + (r : ℚ) * (sl + sy),
        (generateRow sectionLeft w sw sp aw mc).1)),
    startY + prevDist + sectionAdvance rows sl sy)

/-! ## Seats and guests

The geometric fields (`x`, `y`, `width`, `height`) of the source seat object
are carried by the row-layout model (`RowSeat`); the state claims concern
identity and mutable fields, modelled below.  The `section` field is renamed
`sectionName` (Lean keyword). -/

structure Seat where
  id : String
  sectionName : String
  row : ℕ
  col : ℕ
  occupied : Bool
  vip : Bool
  guestId : Option String
  guestNumber : Option String
  guestName : Option String
  guestUnit : Option String
  assignedSection : Option String
  sectionColor : Option String
  isSelected : Bool
deriving DecidableEq, Repr

structure Guest where
  id : String
  number : String
  name : String
  unit : Option String
  assignedSection : String
  seatId : Option String
deriving DecidableEq, Repr

/-! ## State reconciler (generateSeats, lines 976–990 and 1139–1160) -/

/-- The per-seat mutable state captured by `existingSeatsMap`. -/
structure MutState where
  occupied : Bool
  vip : Bool
  guestId : Option String
  guestNumber : Option String
  guestName : Option String
  guestUnit : Option String
  assignedSection : Option String
  sectionColor : Option String
  isSelected : Bool
deriving DecidableEq, Repr

def mutOf (s : Seat) : MutState :=
  ⟨s.occupied, s.vip, s.guestId, s.guestNumber, s.guestName, s.guestUnit,
    s.assignedSection, s.sectionColor, s.isSelected⟩

/-- `existingSeatsMap[id]` (lines 977–990): the `forEach` writes later seats
over earlier ones, so the lookup returns the last seat carrying the id. -/
def existingSeatsMap (prev : List Seat) (i : String) : Option MutState :=
  (prev.reverse.find? (fun s => s.id == i)).map mutOf

/-- Seat construction (lines 1142–1160): mutable fields come from the
existing map when the id is known, else defaults — `Math.random() > 0.7` for
`occupied` (modelled by the injectable source `rnd`), `false` for `vip` and
selection, `null` for the guest linkage. -/
def applySeatState (m : String → Option MutState) (rnd : String → Bool) (s : Seat) : Seat :=
  match m s.id with
  | some st =>
    { s with
      occupied := st.occupied, vip := st.vip, guestId := st.guestId,
      guestNumber := st.guestNumber, guestName := st.guestName, guestUnit := st.guestUnit,
      assignedSection := st.assignedSection, sectionColor := st.sectionColor,
      isSelected := st.isSelected }
  | none =>
    { s with
      occupied := rnd s.id, vip := false, guestId := none,
      guestNumber := none, guestName := none, guestUnit := none,
      assignedSection := none, sectionColor := none, isSelected := false }

/-- State reconciliation of a rebuild: every freshly generated seat receives
its mutable fields from the previous collection, keyed by seat id. -/
def reconcile (prev : List Seat) (rnd : String → Bool) (newSeats : List Seat) : List Seat :=
  newSeats.map (applySeatState (existingSeatsMap prev) rnd)

/-! ## Roster import (parseExcelData, lines 1879–1922)

A spreadsheet row as the parser reads it: the column values
`编号`/`number`/`Number`, `座位分区`/`section`/`Section`, `姓名`/`name`/`Name`
and `工作单位`/`unit`/`Unit`; a missing cell is `none`. -/

structure ExcelRow where
  numCn : Option String
  numEn : Option String
  numCap : Option String
  secCn : Option String
  secEn : Option String
  secCap : Option String
  nameCn : Option String
  nameEn : Option String
  nameCap : Option String
  unitCn : Option String
  unitEn : Option String
  unitCap : Option String
deriving DecidableEq, Repr

/-- JavaScript `a || d` on a string cell with a string default: a missing
cell and the empty string both fall through to the default. -/
def jsOrS (o : Option String) (d : String) : String :=
  match o with
  | some s => if s = "" then d else s
  | none => d

/-- JavaScript `a || b` where the fallback is itself a cell: used for the
`unit` chain, which ends in `row['工作单位']` and can stay undefined. -/
def jsOrO (a b : Option String) : Option String :=
  match a with
  | some s => if s = "" then b else some s
  | none => b

/-- One row of `parseExcelData` (lines 1892–1908): numbers default to
`GUEST{n}`, sections to `未分配`, and the subsequent missing-field check
throws only if the resolved number or section is still falsy. -/
def parseRow (i : ℕ) (row : ExcelRow) : Except String Guest :=
  if jsOrS row.numCn (jsOrS row.numEn (jsOrS row.numCap ("GUEST" ++ toString (i + 1)))) = ""
      ∨ jsOrS row.secCn (jsOrS row.secEn (jsOrS row.secCap "未分配")) = "" then
    Except.error ("第" ++ toString (i + 1) ++ "行缺少必要字段：编号或座位分区")
  else
    Except.ok
      ⟨"G" ++ toString (i + 1),
        jsOrS row.numCn (jsOrS row.numEn (jsOrS row.numCap ("GUEST" ++ toString (i + 1)))),
        jsOrS row.nameCn (jsOrS row.nameEn (jsOrS row.nameCap "")),
        jsOrO row.unitCn (jsOrO row.unitEn (jsOrO row.unitCap row.unitCn)),
        jsOrS row.secCn (jsOrS row.secEn (jsOrS row.secCap "未分配")),
        none⟩

/-- The whole import: the `.map` body throws on the first bad row, rejecting
everything (the promise rejects and no roster is installed). -/
def parseExcelData : ℕ → List ExcelRow → Except String (List Guest)
  | _, [] => Except.ok []
  | i, row :: rest =>
    match parseRow i row with
    | Except.error e => Except.error e
    | Except.ok g =>
      match parseExcelData (i + 1) rest with
      | Except.error e => Except.error e
      | Except.ok gs => Except.ok (g :: gs)

/-! ## Roster assignment engine (assignGuestsToSeats, lines 1948–2026) -/

/-- Clearing pass (lines 1949–1957): every seat loses its guest linkage.
`occupied` and the selection flag are not touched here. -/
def clearSeatLinks (seats : List Seat) : List Seat :=
  seats.map fun s =>
    { s with
      guestId := none, guestNumber := none, guestName := none,
      guestUnit := none, assignedSection := none, sectionColor := none }

/-- Clearing pass (lines 1960–1962): every guest loses its seat id. -/
def clearGuestSeatIds (guests : List Guest) : List Guest :=
  guests.map fun g => { g with seatId := none }

/-- State of the assignment loop: the seat and guest collections plus the
pending pool (`unassignedGuests`) as guest ids in roster order. -/
structure AssignState where
  seats : List Seat
  guests : List Guest
  unassigned : List String
deriving Repr

/-- Write guest `g`'s data and its original section's color onto the seat
with id `sid` (lines 2003–2008); other seats are untouched. -/
def linkSeat (colors : String → Option String) (g : Guest) (sid : String) (s : Seat) : Seat :=
  if s.id = sid then
    { s with
      guestId := some g.id, guestNumber := some g.number,
      guestName := some g.name, guestUnit := g.unit,
      assignedSection := some g.assignedSection,
      sectionColor := colors g.assignedSection }
  else s

/-- Point guest `g`'s `seatId` at seat `sid` (line 2009). -/
def linkGuest (g : Guest) (sid : String) (x : Guest) : Guest :=
  if x.id = g.id then { x with seatId := some sid } else x

/-- Link one guest to one seat (lines 1999–2016): copy the guest's data and
its original section's color onto the seat, point the guest's `seatId` at
the seat, and remove the guest from the pending pool (`findIndex` +
`splice(i,1)` removes the first occurrence). -/
def assignPair (colors : String → Option String) (st : AssignState)
    (pair : String × String) : AssignState :=
  match st.guests.find? (fun g => g.id == pair.2) with
  | none => st
  | some g =>
    ⟨st.seats.map (linkSeat colors g pair.1),
      st.guests.map (linkGuest g pair.1),
      st.unassigned.erase g.id⟩

/-- The pending guests whose `assignedSection` equals the section name. -/
def sectionPending (st : AssignState) (name : String) : List String :=
  st.unassigned.filter fun gid =>
    ((st.guests.find? (fun g => g.id == gid)).map (fun g => g.assignedSection)) == some name

/-- Process one section (lines 1980–2020): fill up to
`min(sectionSeats.length, guestsToAssign.length)` seats, candidates being
the pending guests targeting this section — or, if there are none, the
single next pending guest (`[unassignedGuests[0]]`, the overflow policy). -/
def assignSection (colors : String → Option String) (st : AssignState)
    (name : String) : AssignState :=
  (((st.seats.filter (fun s => s.sectionName == name)).map (fun s => s.id)).zip
    (if (sectionPending st name).isEmpty then st.unassigned.take 1
     else sectionPending st name)).foldl (assignPair colors) st

/-- The section loop with its early exit when the pool drains (line 1988). -/
def assignLoop (colors : String → Option String) : AssignState → List String → AssignState
  | st, [] => st
  | st, name :: rest =>
    if st.unassigned.isEmpty then st
    else assignLoop colors (assignSection colors st name) rest

/-- `assignGuestsToSeats`: clear all linkage on both collections, then fill
the sections in their configured order. -/
def assignGuestsToSeats (seats : List Seat) (guests : List Guest)
    (sectionNames : List String) (colors : String → Option String) : AssignState :=
  assignLoop colors
    ⟨clearSeatLinks seats, clearGuestSeatIds guests,
      (clearGuestSeatIds guests).map (fun g => g.id)⟩
    sectionNames

/-! ## Seat swap (swapGuestSeats, lines 2161–2201) and reset (lines 1607–1621) -/

/-- Copy the whole guest-linkage field set of `src` onto `dst`. -/
def copyLinks (src dst : Seat) : Seat :=
  { dst with
    guestId := src.guestId, guestNumber := src.guestNumber,
    guestName := src.guestName, guestUnit := src.guestUnit,
    assignedSection := src.assignedSection, sectionColor := src.sectionColor }

/-- `if (seat.guestId) { guests.find(g => g.id === seat.guestId).seatId = seat.id }`. -/
def updateGuestSeat (guests : List Guest) (gid : Option String) (sid : String) : List Guest :=
  match gid with
  | none => guests
  | some g0 => guests.map fun g => if g.id = g0 then { g with seatId := some sid } else g

/-- `swapGuestSeats` as a function of the two seat ids: exchange the two
seats' guest-linkage fields, then point each linked guest's `seatId` at its
new seat (source seat first, then target seat).  A missing seat id makes the
whole operation a no-op. -/
def swapGuestSeats (seats : List Seat) (guests : List Guest) (idA idB : String) :
    List Seat × List Guest :=
  match seats.find? (fun s => s.id == idA), seats.find? (fun s => s.id == idB) with
  | some a, some b =>
    (seats.map fun s =>
        if s.id = idA then copyLinks b s
        else if s.id = idB then copyLinks a s
        else s,
      updateGuestSeat (updateGuestSeat guests b.guestId idA) a.guestId idB)
  | _, _ => (seats, guests)

/-- `resetSeats` (lines 1607–1621): clear occupancy and guest linkage on
every seat and replace the guest collection by the empty list. -/
def resetSeats (seats : List Seat) : List Seat × List Guest :=
  (seats.map fun s =>
    { s with
      occupied := false, guestId := none, guestNumber := none,
      guestName := none, guestUnit := none, assignedSection := none,
      sectionColor := none },
   [])

/-! ## The bidirectional linkage invariant -/

/-- Every seat that names a guest is named back by that guest, and every
guest that names a seat is named back by that seat. -/
def Consistent (seats : List Seat) (guests : List Guest) : Prop :=
  (∀ s ∈ seats, s.guestId = none
    ∨ ∃ g ∈ guests, some g.id = s.guestId ∧ g.seatId = some s.id)
  ∧ (∀ g ∈ guests, g.seatId = none
    ∨ ∃ s ∈ seats, some s.id = g.seatId ∧ s.guestId = some g.id)

/-! ### C6: overflow policy for unmatched guests -/

/-- Sections and seats for the C6 counterexample: two sections of two seats
each. -/
def c6Seats : List Seat :=
  [⟨"A1", "A", 1, 1, false, false, none, none, none, none, none, none, false⟩,
   ⟨"A2", "A", 1, 2, false, false, none, none, none, none, none, none, false⟩,
   ⟨"B1", "B", 1, 1, false, false, none, none, none, none, none, none, false⟩,
   ⟨"B2", "B", 1, 2, false, false, none, none, none, none, none, none, false⟩]

/-- Roster for the C6 counterexample: G1 targets the unknown section "X",
G2 targets "A". -/
def c6Guests : List Guest :=
  [⟨"G1", "1", "", none, "X", none⟩, ⟨"G2", "2", "", none, "A", none⟩]

/-! ### C5: double swap -/

/-- Seats for the C5 counterexample: seat "A" points at guest G1, whose own
`seatId` is (inconsistently) null. -/
def c5Seats : List Seat :=
  [⟨"A", "S", 1, 1, false, false, some "G1", some "1", some "n", none, some "S", none, false⟩,
   ⟨"B", "S", 1, 2, false, false, none, none, none, none, none, none, false⟩]

/-- Guest for the C5 counterexample. -/
def c5Guests : List Guest :=
  [⟨"G1", "1", "n", none, "S", none⟩]

/-- The inductive invariant of the assignment loop: bidirectional
consistency, key uniqueness, every pending guest is unseated, and every seat
of a not-yet-processed section is free. -/
structure AssignInv (st : AssignState) (names : List String) : Prop where
  cons : Consistent st.seats st.guests
  seatsND : (st.seats.map (fun s => s.id)).Nodup
  guestsND : (st.guests.map (fun g => g.id)).Nodup
  pendND : st.unassigned.Nodup
  pendFree : ∀ g ∈ st.guests, g.id ∈ st.unassigned → g.seatId = none
  sectFree : ∀ s ∈ st.seats, s.sectionName ∈ names → s.guestId = none

/-- Two free seats in one section, for exercising assignment and swap. -/
def c4Seats : List Seat :=
  [⟨"A1", "A", 1, 1, false, false, none, none, none, none, none, none, false⟩,
   ⟨"A2", "A", 1, 2, false, false, none, none, none, none, none, none, false⟩]

/-- Two guests targeting section "A". -/
def c4Guests : List Guest :=
  [⟨"G1", "1", "", none, "A", none⟩, ⟨"G2", "2", "", none, "A", none⟩]

/-! ## Theorems -/
/-! ### Packer lemmas -/

theorem scanGo_eq_find? (w u sp aw : ℚ) (mc step : ℕ) :
    ∀ fuel t, scanGo w u sp aw mc step t fuel
      = (scanList step t fuel).find? (fun m => fitsRow w u sp aw mc m) := by
  intro fuel
  induction fuel with
  | zero => intro t; rfl
  | succ f ih =>
    intro t
    by_cases h0 : t = 0
    · simp [scanGo, scanList, h0]
    · by_cases hf : fitsRow w u sp aw mc t
      · simp [scanGo, scanList, h0, hf, List.find?]
      · simp [scanGo, scanList, h0, hf, List.find?, ih]

theorem scanList_head (step : ℕ) :
    ∀ fuel t, scanList step t fuel = [] ∨ (scanList step t fuel).head? = some t := by
  intro fuel t
  cases fuel with
  | zero => exact Or.inl rfl
  | succ f =>
    by_cases h0 : t = 0
    · exact Or.inl (by simp [scanList, h0])
    · exact Or.inr (by simp [scanList, h0])

theorem scanList_descending (step : ℕ) (hstep : 1 ≤ step) :
    ∀ fuel t, (scanList step t fuel).Chain' (fun a b => b < a) := by
  intro fuel
  induction fuel with
  | zero => intro t; simp [scanList]
  | succ f ih =>
    intro t
    by_cases h0 : t = 0
    · simp [scanList, h0]
    · rw [scanList, if_neg h0, List.chain'_cons']
      refine ⟨?_, ih (t - step)⟩
      intro b hb
      rcases scanList_head step f (t - step) with hnil | hhd
      · rw [hnil] at hb; simp at hb
      · rw [hhd] at hb
        simp only [Option.mem_def, Option.some.injEq] at hb
        subst hb
        exact Nat.sub_lt (Nat.pos_of_ne_zero h0) hstep

/-- Evaluation helper: if the very first candidate fits, the scan accepts it. -/
theorem findSeatCount_first (w u sp aw : ℚ) (mc t0 : ℕ)
    (hmax : maxSeatsNoAisle w u sp = t0) (h1 : t0 ≠ 0)
    (hfit : fitsRow w u sp aw mc t0 = true) :
    findSeatCount w u sp aw mc = some t0 := by
  unfold findSeatCount
  rw [hmax]
  show scanGo w u sp aw mc _ t0 (49 + 1) = some t0
  rw [scanGo, if_neg h1, if_pos hfit]

/-- Evaluation helper: the scan never accepts when it starts at zero. -/
theorem findSeatCount_zero (w u sp aw : ℚ) (mc : ℕ)
    (hmax : maxSeatsNoAisle w u sp = 0) :
    findSeatCount w u sp aw mc = none := by
  unfold findSeatCount
  rw [hmax]
  rfl

/-- Helper: one seat forms one block when `maxContinuousSeats >= 1`. -/
theorem numBlocks_one (mc : ℕ) (hmc : 1 ≤ mc) : numBlocks 1 mc = 1 := by
  unfold numBlocks
  have hm : (0 : ℚ) < (mc : ℚ) := by exact_mod_cast hmc
  have hceil : Int.ceil (((1 : ℕ) : ℚ) / (mc : ℚ)) = 1 := by
    rw [Int.ceil_eq_iff]
    constructor
    · have : (0 : ℚ) < 1 / (mc : ℚ) := div_pos one_pos hm
      push_cast
      linarith
    · push_cast
      rw [div_le_one hm]
      exact_mod_cast hmc
  rw [hceil]
  rfl

/-- Helper: zero seats form zero blocks. -/
theorem numBlocks_zero (mc : ℕ) : numBlocks 0 mc = 0 := by
  unfold numBlocks
  simp

/-- Helper: concrete block count used by the packer witnesses. -/
theorem numBlocks_five_two : numBlocks 5 2 = 3 := by
  unfold numBlocks
  rw [show Int.ceil (((5 : ℕ) : ℚ) / ((2 : ℕ) : ℚ)) = 3 by rw [Int.ceil_eq_iff] <;> norm_num]
  rfl

/-- C1 (confirmed): for every row packed by `generateSeats`, the search starts
at `maxSeatsNoAisle = floor((sectionWidth + seatSpacing) / unit)`, probes
candidate counts in strictly decreasing order, and the accepted seat count is
the first candidate of the scan sequence whose required width
`n*unit - seatSpacing + numAisles*aisleWidth` (with
`numBlocks = ceil(n / maxContinuousSeats)` and `numAisles = numBlocks - 1`,
see `requiredWidth`/`fitsRow`) is at most `sectionWidth`. -/
theorem C1_search_accepts_first_fitting_candidate (w sw sp aw : ℚ) (mc : ℕ) :
    (findSeatCount w (sw + sp) sp aw mc
      = (scanList (scanStep (maxSeatsNoAisle w (sw + sp) sp)) (maxSeatsNoAisle w (sw + sp) sp) 50).find?
          (fun m => fitsRow w (sw + sp) sp aw mc m))
    ∧ (1 ≤ maxSeatsNoAisle w (sw + sp) sp →
        (scanList (scanStep (maxSeatsNoAisle w (sw + sp) sp)) (maxSeatsNoAisle w (sw + sp) sp) 50).head?
          = some (Int.toNat (Int.floor ((w + sp) / (sw + sp)))))
    ∧ (scanList (scanStep (maxSeatsNoAisle w (sw + sp) sp)) (maxSeatsNoAisle w (sw + sp) sp) 50).Chain'
        (fun a b => b < a)
    ∧ (∀ n, findSeatCount w (sw + sp) sp aw mc = some n → (packRow w sw sp aw mc).1 = n) := by
  refine ⟨scanGo_eq_find? w (sw + sp) sp aw mc _ 50 _, ?_, ?_, ?_⟩
  · intro h1
    rcases scanList_head (scanStep (maxSeatsNoAisle w (sw + sp) sp)) 50 (maxSeatsNoAisle w (sw + sp) sp)
      with hnil | hhd
    · exfalso
      have h0 : maxSeatsNoAisle w (sw + sp) sp ≠ 0 := by omega
      rw [show (50 : ℕ) = 49 + 1 from rfl, scanList, if_neg h0] at hnil
      exact List.cons_ne_nil _ _ hnil
    · exact hhd
  · apply scanList_descending
    unfold scanStep
    split
    · exact le_max_left 1 _
    · exact le_refl 1
  · intro n hn
    unfold packRow
    rw [hn]
    dsimp only
    split <;> rfl

/-- C1 witness: with `sectionWidth = 21/2`, `seatWidth = 2`, spacing `0`,
`aisleWidth = 1/10` and `maxContinuousSeats = 2`, the search accepts its
first candidate `5` and the packer reports 5 seats. -/
theorem C1_search_accepts_first_fitting_candidate_witness :
    findSeatCount (21/2) (2 + 0) 0 (1/10) 2 = some 5
      ∧ (packRow (21/2) 2 0 (1/10) 2).1 = 5 := by
  have hnb : numBlocks 5 2 = 3 := numBlocks_five_two
  have hmax : maxSeatsNoAisle (21/2) (2 + 0) 0 = 5 := by
    unfold maxSeatsNoAisle
    rw [show Int.floor (((21 : ℚ)/2 + 0) / (2 + 0)) = 5 by norm_num]
    rfl
  have hfit : fitsRow (21/2) (2 + 0) 0 (1/10) 2 5 = true := by
    unfold fitsRow requiredWidth numAisles
    rw [hnb]
    norm_num
  have hfind : findSeatCount (21/2) (2 + 0) 0 (1/10) 2 = some 5 :=
    findSeatCount_first _ _ _ _ _ _ hmax (by norm_num) hfit
  exact ⟨hfind,
    (C1_search_accepts_first_fitting_candidate (21/2) 2 0 (1/10) 2).2.2.2 5 hfind⟩

/-- C2 (confirmed): whenever the packer accepts a positive seat count that
splits into more than one block, each produced aisle width is the configured
width plus an even share of the leftover, and
`seatCount * unit - seatSpacing + sum(aisleWidths)` equals `sectionWidth`
exactly (hence within the 0.01 tolerance). -/
theorem C2_aisles_absorb_leftover_exactly (w sw sp aw : ℚ) (mc : ℕ) (n : ℕ) (ws : List ℚ)
    (hmc : 1 ≤ mc) (hpack : packRow w sw sp aw mc = (n, ws))
    (hblocks : 1 < numBlocks n mc) :
    (∀ q ∈ ws, q = aw + (w - requiredWidth (sw + sp) sp aw mc n) / (numAisles n mc : ℚ))
    ∧ (n : ℚ) * (sw + sp) - sp + ws.sum = w
    ∧ |(n : ℚ) * (sw + sp) - sp + ws.sum - w| ≤ 1/100 := by
  have hk : 0 < numAisles n mc := by
    unfold numAisles
    omega
  unfold packRow at hpack
  rcases hfind : findSeatCount w (sw + sp) sp aw mc with _ | m
  · rw [hfind] at hpack
    dsimp only at hpack
    split at hpack
    · injection hpack with hn hws
      subst hn
      exfalso
      have h1 : numBlocks 1 mc = 1 := numBlocks_one mc hmc
      omega
    · injection hpack with hn hws
      subst hn
      exfalso
      have h0 : numBlocks 0 mc = 0 := numBlocks_zero mc
      omega
  · rw [hfind] at hpack
    dsimp only at hpack
    by_cases hkm : 0 < numAisles m mc
    · rw [if_pos hkm] at hpack
      injection hpack with hn hws
      subst hn
      have hkQ : ((numAisles m mc : ℕ) : ℚ) ≠ 0 := Nat.cast_ne_zero.mpr (by omega)
      have hwsum : ws.sum
          = (numAisles m mc : ℚ) * aw + (w - requiredWidth (sw + sp) sp aw mc m) := by
        rw [← hws, List.sum_replicate, nsmul_eq_mul]
        field_simp
        ring
      have hmember : ∀ q ∈ ws,
          q = aw + (w - requiredWidth (sw + sp) sp aw mc m) / (numAisles m mc : ℚ) := by
        intro q hq
        rw [← hws] at hq
        exact List.eq_of_mem_replicate hq
      have hmain : (m : ℚ) * (sw + sp) - sp + ws.sum = w := by
        rw [hwsum]
        unfold requiredWidth
        ring
      exact ⟨hmember, hmain, by rw [hmain]; norm_num⟩
    · rw [if_neg hkm] at hpack
      injection hpack with hn hws
      subst hn
      exact absurd hk hkm

/-- C2 witness: `packRow (21/2) 2 0 (1/10) 2` accepts 5 seats in 3 blocks with
two aisles of width `1/4` each, and `5 * 2 - 0 + (1/4 + 1/4) = 21/2` exactly. -/
theorem C2_aisles_absorb_leftover_exactly_witness :
    1 ≤ 2 ∧ packRow (21/2) 2 0 (1/10) 2 = (5, List.replicate 2 (1/4 : ℚ))
      ∧ 1 < numBlocks 5 2
      ∧ ((5 : ℕ) : ℚ) * (2 + 0) - 0 + (List.replicate 2 (1/4 : ℚ)).sum = 21/2 := by
  have hnb := numBlocks_five_two
  have hna : numAisles 5 2 = 2 := by
    unfold numAisles
    rw [hnb]
  have hmax : maxSeatsNoAisle (21/2) (2 + 0) 0 = 5 := by
    unfold maxSeatsNoAisle
    rw [show Int.floor (((21 : ℚ)/2 + 0) / (2 + 0)) = 5 by norm_num]
    rfl
  have hfit : fitsRow (21/2) (2 + 0) 0 (1/10) 2 5 = true := by
    unfold fitsRow requiredWidth
    rw [hna]
    norm_num
  have hfind : findSeatCount (21/2) (2 + 0) 0 (1/10) 2 = some 5 :=
    findSeatCount_first _ _ _ _ _ _ hmax (by norm_num) hfit
  have hpack : packRow (21/2) 2 0 (1/10) 2 = (5, List.replicate 2 (1/4 : ℚ)) := by
    unfold packRow
    rw [hfind]
    dsimp only
    rw [if_pos (by rw [hna]; norm_num)]
    rw [hna]
    unfold requiredWidth
    rw [hna]
    norm_num
  refine ⟨by norm_num, hpack, by rw [hnb]; norm_num, ?_⟩
  exact (C2_aisles_absorb_leftover_exactly (21/2) 2 0 (1/10) 2 5 (List.replicate 2 (1/4 : ℚ))
    (by norm_num) hpack (by rw [hnb]; norm_num)).2.1

/-! ### Layout lemmas -/

theorem seatsPerBlock_length (mc : ℕ) : ∀ k rem, (seatsPerBlock k rem mc).length = k := by
  intro k
  induction k with
  | zero => intro rem; rfl
  | succ m ih => intro rem; simp [seatsPerBlock, ih]

theorem layoutBlocks_snd_translate (u sp d t : ℚ) :
    ∀ (blocks : List ℕ) (aisles : List ℚ) (x : ℚ) (col : ℕ),
      (layoutBlocks u sp d blocks aisles (x + t) col).2
        = (layoutBlocks u sp d blocks aisles x col).2 + t := by
  intro blocks
  induction blocks with
  | nil => intro aisles x col; simp [layoutBlocks]
  | cons b rest ih =>
    intro aisles x col
    cases rest with
    | nil => simp [layoutBlocks]; ring
    | cons b2 rest2 =>
      simp only [layoutBlocks]
      rw [show x + t + (b : ℚ) * u - sp + jsOrQ aisles.head? d
            = x + (b : ℚ) * u - sp + jsOrQ aisles.head? d + t by ring]
      exact ih aisles.tail _ _

theorem layoutBlocks_snd_map_add (u sp aw c : ℚ) :
    ∀ (blocks : List ℕ) (ws : List ℚ) (x : ℚ) (col : ℕ),
      blocks ≠ [] → ws.length = blocks.length - 1 →
      (∀ q ∈ ws, q ≠ 0 ∧ q + c ≠ 0) →
      (layoutBlocks u sp (aw + c) blocks (ws.map (fun q => q + c)) x col).2
        = (layoutBlocks u sp aw blocks ws x col).2 + ((blocks.length : ℚ) - 1) * c := by
  intro blocks
  induction blocks with
  | nil => intro ws x col hne; exact absurd rfl hne
  | cons b rest ih =>
    intro ws x col _ hlen hws
    cases rest with
    | nil =>
      simp [layoutBlocks]
    | cons b2 rest2 =>
      have hwsne : ws ≠ [] := by
        intro h
        rw [h] at hlen
        simp at hlen
      rcases List.exists_cons_of_ne_nil hwsne with ⟨q, ws2, rfl⟩
      have hq := hws q (by simp)
      simp only [layoutBlocks, List.map_cons, List.head?_cons, List.tail_cons]
      have hjs1 : jsOrQ (some (q + c)) (aw + c) = q + c := by
        simp [jsOrQ, hq.2]
      have hjs2 : jsOrQ (some q) aw = q := by
        simp [jsOrQ, hq.1]
      rw [hjs1, hjs2]
      have hlen2 : ws2.length = (b2 :: rest2).length - 1 := by
        simp at hlen
        simp [hlen]
      have hws2 : ∀ r ∈ ws2, r ≠ 0 ∧ r + c ≠ 0 := fun r hr => hws r (by simp [hr])
      rw [show x + (b : ℚ) * u - sp + (q + c) = x + (b : ℚ) * u - sp + q + c by ring]
      rw [layoutBlocks_snd_translate]
      rw [ih ws2 _ _ (by simp) hlen2 hws2]
      simp only [List.length_cons]
      push_cast
      ring

theorem seatsPerBlock_ne_nil (k rem mc : ℕ) (hk : 1 ≤ k) :
    seatsPerBlock k rem mc ≠ [] := by
  cases k with
  | zero => omega
  | succ m => simp [seatsPerBlock]

theorem blockSeats_one (u x : ℚ) (col : ℕ) : blockSeats u x col 1 = [⟨col, x⟩] := by
  unfold blockSeats
  rw [show List.range 1 = [0] from rfl]
  simp

theorem regenerateRow_uniform (sectionLeft w sw u sp aw : ℚ) (n : ℕ) (blocks : List ℕ)
    (ws : List ℚ) (adj : ℚ) (hn1 : 1 < n) :
    regenerateRow sectionLeft w sw u sp aw n 1 blocks ws adj
      = ((List.range n).map
          (fun i => ⟨i + 1, sectionLeft + (i : ℚ) * (sw + (w - (n : ℚ) * sw) / ((n : ℚ) - 1))⟩),
         sectionLeft + (n : ℚ) * sw + ((n : ℚ) - 1) * ((w - (n : ℚ) * sw) / ((n : ℚ) - 1))) := by
  unfold regenerateRow
  rw [if_neg (by omega), if_pos ⟨rfl, hn1⟩]

theorem regenerateRow_single (sectionLeft w sw u sp aw : ℚ) (blocks : List ℕ)
    (ws : List ℚ) (adj : ℚ) :
    regenerateRow sectionLeft w sw u sp aw 1 1 blocks ws adj
      = ([⟨1, sectionLeft⟩], sectionLeft + sw) := by
  unfold regenerateRow
  rw [if_neg (by omega), if_neg (by omega), if_pos ⟨rfl, rfl⟩]

/-- C8 (confirmed): when a packed row's laid-out right edge misses the section
boundary by more than 0.01, the row is regenerated (`layoutRow` dispatches to
`regenerateRow`), and the regeneration follows exactly one of three policies:
with several blocks the residual `adj` is added evenly to the aisle widths so
that the final right edge moves by exactly `adj`; with one block of more than
one seat the seats are re-spaced uniformly with
`(sectionWidth - n*seatWidth)/(n-1)` — independent of the configured
inter-seat spacing — and the right edge lands exactly on
`sectionLeft + sectionWidth`; with one block of exactly one seat the seat is
left-aligned at the section's left edge. -/
theorem C8_adjustment_policy_by_topology (sectionLeft w sw sp aw adj : ℚ) (mc n : ℕ)
    (ws : List ℚ) (hn : 1 ≤ n)
    (hlen : ws.length = numBlocks n mc - 1)
    (htrig : 1/100 < |adj|)
    (hadj : adj = w - ((layoutBlocks (sw + sp) sp aw (seatsPerBlock (numBlocks n mc) n mc) ws
      sectionLeft 1).2 - sectionLeft))
    (hws : ∀ q ∈ ws, q ≠ 0 ∧ q + adj / ((numBlocks n mc : ℚ) - 1) ≠ 0) :
    layoutRow sectionLeft w sw sp aw mc n ws
      = regenerateRow sectionLeft w sw (sw + sp) sp aw n (numBlocks n mc)
          (seatsPerBlock (numBlocks n mc) n mc) ws adj
    ∧ (1 < numBlocks n mc →
        (regenerateRow sectionLeft w sw (sw + sp) sp aw n (numBlocks n mc)
            (seatsPerBlock (numBlocks n mc) n mc) ws adj).2
          = (layoutBlocks (sw + sp) sp aw (seatsPerBlock (numBlocks n mc) n mc) ws
              sectionLeft 1).2 + adj)
    ∧ (numBlocks n mc = 1 → 1 < n →
        regenerateRow sectionLeft w sw (sw + sp) sp aw n (numBlocks n mc)
            (seatsPerBlock (numBlocks n mc) n mc) ws adj
          = ((List.range n).map
              (fun i => ⟨i + 1, sectionLeft + (i : ℚ) * (sw + (w - (n : ℚ) * sw) / ((n : ℚ) - 1))⟩),
             sectionLeft + w)
        ∧ (∀ sp2 : ℚ, regenerateRow sectionLeft w sw (sw + sp2) sp2 aw n (numBlocks n mc)
              (seatsPerBlock (numBlocks n mc) n mc) ws adj
            = regenerateRow sectionLeft w sw (sw + sp) sp aw n (numBlocks n mc)
                (seatsPerBlock (numBlocks n mc) n mc) ws adj))
    ∧ (numBlocks n mc = 1 → n = 1 →
        regenerateRow sectionLeft w sw (sw + sp) sp aw n (numBlocks n mc)
            (seatsPerBlock (numBlocks n mc) n mc) ws adj
          = ([⟨1, sectionLeft⟩], sectionLeft + sw)) := by
  refine ⟨?_, ?_, ?_, ?_⟩
  · unfold layoutRow
    rw [← hadj, if_pos htrig]
  · intro h2
    unfold regenerateRow
    rw [if_pos h2]
    have hbne : seatsPerBlock (numBlocks n mc) n mc ≠ [] :=
      seatsPerBlock_ne_nil _ _ _ (by omega)
    have hlen2 : ws.length = (seatsPerBlock (numBlocks n mc) n mc).length - 1 := by
      rw [seatsPerBlock_length]
      exact hlen
    rw [layoutBlocks_snd_map_add (sw + sp) sp aw (adj / ((numBlocks n mc : ℚ) - 1))
      (seatsPerBlock (numBlocks n mc) n mc) ws sectionLeft 1 hbne hlen2 hws]
    rw [seatsPerBlock_length]
    have hne : ((numBlocks n mc : ℚ) - 1) ≠ 0 := by
      have h2Q : (2 : ℚ) ≤ (numBlocks n mc : ℚ) := by exact_mod_cast h2
      intro hz
      linarith
    field_simp
  · intro h1 hn1
    have hne : ((n : ℚ) - 1) ≠ 0 := by
      have h2Q : (2 : ℚ) ≤ (n : ℚ) := by exact_mod_cast hn1
      intro hz
      linarith
    constructor
    · rw [h1, regenerateRow_uniform sectionLeft w sw (sw + sp) sp aw n _ ws adj hn1]
      rw [Prod.mk.injEq]
      refine ⟨rfl, ?_⟩
      field_simp
    · intro sp2
      rw [h1, regenerateRow_uniform sectionLeft w sw (sw + sp2) sp2 aw n _ ws adj hn1,
        regenerateRow_uniform sectionLeft w sw (sw + sp) sp aw n _ ws adj hn1]
  · intro h1 hn1
    subst hn1
    rw [h1]
    exact regenerateRow_single sectionLeft w sw (sw + sp) sp aw _ ws adj

/-- C8 witness: section width `21/2`, seat width `1`, spacing `1`, aisle
width `1/10`, `maxContinuousSeats = 2`, 5 seats in blocks `[2,2,1]` with
packed aisle widths `3/4`: the original layout ends at `17/2`, the residual
is `2 > 0.01`, and the regenerated multi-block row ends exactly at the
section boundary `21/2`. -/
theorem C8_adjustment_policy_by_topology_witness :
    (regenerateRow 0 (21/2) 1 (1 + 1) 1 (1/10) 5 (numBlocks 5 2)
        (seatsPerBlock (numBlocks 5 2) 5 2) [3/4, 3/4] 2).2 = 21/2 := by
  have hsb : seatsPerBlock (numBlocks 5 2) 5 2 = [2, 2, 1] := by
    rw [numBlocks_five_two]
    decide
  have hsnd : (layoutBlocks ((1 : ℚ) + 1) 1 (1/10) (seatsPerBlock (numBlocks 5 2) 5 2)
      [3/4, 3/4] 0 1).2 = 17/2 := by
    rw [hsb]
    simp only [layoutBlocks, List.head?_cons, List.tail_cons]
    norm_num [jsOrQ]
  have h := (C8_adjustment_policy_by_topology 0 (21/2) 1 1 (1/10) 2 2 5 [3/4, 3/4]
    (by norm_num)
    (by rw [numBlocks_five_two]; rfl)
    (by norm_num)
    (by rw [hsnd]; norm_num)
    (by
      intro q hq
      rw [numBlocks_five_two]
      simp only [List.mem_cons, List.not_mem_nil, or_false] at hq
      rcases hq with rfl | rfl
      · refine ⟨by norm_num, by push_cast; norm_num⟩
      · refine ⟨by norm_num, by push_cast; norm_num⟩)).2.1
    (by rw [numBlocks_five_two]; norm_num)
  rw [h, hsnd]
  norm_num

/-- C9 (confirmed): when the downward scan finds no fitting candidate the
packer falls back without error: if at least one seat's width fits, the row
gets exactly one seat (at the section's left edge, no aisles); otherwise the
row contributes no seats.  Either way the section's vertical cursor advances
by the full `rows*seatLength + (rows-1)*seatFrontBackSpacing`, independent of
the width parameters that decide whether rows were skipped. -/
theorem C9_fallback_and_vertical_advance (sectionLeft w sw sp aw : ℚ) (mc rows : ℕ)
    (startY prevDist sl sy : ℚ) (hmc : 1 ≤ mc)
    (hscan : findSeatCount w (sw + sp) sp aw mc = none) :
    (sw ≤ w → (generateRow sectionLeft w sw sp aw mc).1 = [⟨1, sectionLeft⟩])
    ∧ (w < sw → (generateRow sectionLeft w sw sp aw mc).1 = [])
    ∧ (generateSection sectionLeft w sw sp aw mc rows startY prevDist sl sy).2
        = startY + prevDist + ((rows : ℚ) * sl + ((rows : ℚ) - 1) * sy)
    ∧ (∀ (w2 sw2 sp2 aw2 : ℚ) (mc2 : ℕ),
        (generateSection sectionLeft w2 sw2 sp2 aw2 mc2 rows startY prevDist sl sy).2
          = (generateSection sectionLeft w sw sp aw mc rows startY prevDist sl sy).2) := by
  refine ⟨?_, ?_, rfl, fun w2 sw2 sp2 aw2 mc2 => rfl⟩
  · intro hsw
    have hpack : packRow w sw sp aw mc = (1, []) := by
      unfold packRow
      rw [hscan, if_pos hsw]
    unfold generateRow
    rw [hpack]
    dsimp only
    rw [if_neg (by norm_num)]
    unfold layoutRow
    have hnb1 : numBlocks 1 mc = 1 := numBlocks_one mc hmc
    rw [hnb1]
    have hblocks : seatsPerBlock 1 1 mc = [1] := by
      have hb0 : seatsPerBlock 1 1 mc = [min 1 mc] := rfl
      rw [hb0, min_eq_left hmc]
    rw [hblocks]
    have hone : layoutBlocks (sw + sp) sp aw [1] [] sectionLeft 1
        = ([⟨1, sectionLeft⟩], sectionLeft + ((1 : ℕ) : ℚ) * (sw + sp) - sp) := by
      unfold layoutBlocks
      rw [blockSeats_one]
    rw [hone]
    split
    · rw [regenerateRow_single]
    · simp
  · intro hw
    have hpack : packRow w sw sp aw mc = (0, []) := by
      unfold packRow
      rw [hscan, if_neg (by linarith)]
    unfold generateRow
    rw [hpack]
    rw [if_pos rfl]

/-- C9 witness: with section width `1` and seat width `2` the scan starts at
`maxSeatsNoAisle = 0` and finds nothing, not even one seat fits, and the row
contributes no seats while the section still advances by its full height. -/
theorem C9_fallback_and_vertical_advance_witness :
    findSeatCount 1 (2 + 0) 0 1 1 = none
    ∧ (generateRow 0 1 2 0 1 1).1 = []
    ∧ (generateSection 0 1 2 0 1 1 3 0 2 1 (1/2)).2 = 0 + 2 + ((3 : ℚ) * 1 + ((3 : ℚ) - 1) * (1/2)) := by
  have hscan : findSeatCount 1 (2 + 0) 0 1 1 = none := by
    apply findSeatCount_zero
    unfold maxSeatsNoAisle
    rw [show Int.floor (((1 : ℚ) + 0) / (2 + 0)) = 0 by norm_num]
    rfl
  have h := C9_fallback_and_vertical_advance 0 1 2 0 1 1 3 0 2 1 (1/2) (by norm_num) hscan
  exact ⟨hscan, h.2.1 (by norm_num), h.2.2.1⟩

/-! ### Reconciler lemmas -/

theorem inj_on_of_key_nodup {α : Type} (f : α → String) (l : List α)
    (h : (l.map f).Nodup) {a b : α} (ha : a ∈ l) (hb : b ∈ l) (hf : f a = f b) : a = b :=
  List.inj_on_of_nodup_map h ha hb hf

theorem applySeatState_id (m : String → Option MutState) (rnd : String → Bool) (s : Seat) :
    (applySeatState m rnd s).id = s.id := by
  unfold applySeatState
  cases m s.id with
  | none => rfl
  | some st => rfl

theorem existingSeatsMap_eq_some (prev : List Seat) (p : Seat)
    (hnd : (prev.map (fun s => s.id)).Nodup) (hp : p ∈ prev) :
    existingSeatsMap prev p.id = some (mutOf p) := by
  unfold existingSeatsMap
  rcases hfind : prev.reverse.find? (fun s => s.id == p.id) with _ | q
  · exfalso
    have := List.find?_eq_none.mp hfind p (List.mem_reverse.mpr hp)
    simp at this
  · have hq1 := List.find?_some hfind
    have hq2 : q ∈ prev := List.mem_reverse.mp (List.mem_of_find?_eq_some hfind)
    have : q = p :=
      inj_on_of_key_nodup (fun s => s.id) prev hnd hq2 hp (by simpa using hq1)
    subst this
    rw [hfind]
    rfl

theorem existingSeatsMap_eq_none (prev : List Seat) (i : String)
    (h : ∀ p ∈ prev, p.id ≠ i) :
    existingSeatsMap prev i = none := by
  unfold existingSeatsMap
  rw [List.find?_eq_none.mpr]
  · rfl
  · intro p hp
    simpa using h p (List.mem_reverse.mp hp)

/-- C3 (confirmed): reconciliation copies all mutable fields (`occupied`,
`vip`, guest linkage, selection) unchanged from the previous seat that
carries the same id; a seat id with no previous counterpart gets the
default/randomized initial state (guest linkage `null`, selection `false`);
and the output carries exactly the new layout's seat ids, so state held
under ids that disappeared is dropped. -/
theorem C3_reconcile_preserves_state_by_id (prev newSeats : List Seat) (rnd : String → Bool)
    (hnd : (prev.map (fun s => s.id)).Nodup) :
    (∀ s ∈ newSeats, ∀ p ∈ prev, p.id = s.id →
      mutOf (applySeatState (existingSeatsMap prev) rnd s) = mutOf p)
    ∧ (∀ s ∈ newSeats, (∀ p ∈ prev, p.id ≠ s.id) →
      (applySeatState (existingSeatsMap prev) rnd s).guestId = none
      ∧ (applySeatState (existingSeatsMap prev) rnd s).guestNumber = none
      ∧ (applySeatState (existingSeatsMap prev) rnd s).guestName = none
      ∧ (applySeatState (existingSeatsMap prev) rnd s).guestUnit = none
      ∧ (applySeatState (existingSeatsMap prev) rnd s).assignedSection = none
      ∧ (applySeatState (existingSeatsMap prev) rnd s).sectionColor = none
      ∧ (applySeatState (existingSeatsMap prev) rnd s).isSelected = false)
    ∧ (reconcile prev rnd newSeats).map (fun s => s.id) = newSeats.map (fun s => s.id) := by
  refine ⟨?_, ?_, ?_⟩
  · intro s _ p hp hpid
    have hmap : existingSeatsMap prev s.id = some (mutOf p) := by
      rw [← hpid]
      exact existingSeatsMap_eq_some prev p hnd hp
    unfold applySeatState
    rw [hmap]
    rfl
  · intro s _ hnone
    have hmap : existingSeatsMap prev s.id = none := existingSeatsMap_eq_none prev s.id hnone
    unfold applySeatState
    rw [hmap]
    exact ⟨rfl, rfl, rfl, rfl, rfl, rfl, rfl⟩
  · unfold reconcile
    rw [List.map_map]
    apply List.map_congr_left
    intro s _
    simp only [Function.comp_apply, applySeatState_id]

/-- C3 witness: a two-seat previous layout, a regenerated layout that keeps
one id; the kept seat's mutable state is copied unchanged. -/
theorem C3_reconcile_preserves_state_by_id_witness :
    (([(⟨"S1-R1-1", "A", 1, 1, true, false, some "G1", some "7", some "n", none,
        some "A", some "#409eff", true⟩ : Seat),
       ⟨"S1-R1-2", "A", 1, 2, false, false, none, none, none, none, none, none,
        false⟩].map (fun s => s.id)).Nodup)
    ∧ mutOf (applySeatState (existingSeatsMap
        [⟨"S1-R1-1", "A", 1, 1, true, false, some "G1", some "7", some "n", none,
          some "A", some "#409eff", true⟩,
         ⟨"S1-R1-2", "A", 1, 2, false, false, none, none, none, none, none, none,
          false⟩]) (fun _ => false)
        ⟨"S1-R1-1", "A", 1, 1, false, false, none, none, none, none, none, none, false⟩)
      = ⟨true, false, some "G1", some "7", some "n", none, some "A", some "#409eff", true⟩ := by
  constructor
  · decide
  · have h := (C3_reconcile_preserves_state_by_id
      [⟨"S1-R1-1", "A", 1, 1, true, false, some "G1", some "7", some "n", none,
        some "A", some "#409eff", true⟩,
       ⟨"S1-R1-2", "A", 1, 2, false, false, none, none, none, none, none, none, false⟩]
      [⟨"S1-R1-1", "A", 1, 1, false, false, none, none, none, none, none, none, false⟩]
      (fun _ => false) (by decide)).1
    rw [h _ (by decide) _ (List.mem_cons_self _ _) (by decide)]
    decide

/-- Helper: the `||` chain never resolves to the empty string when its final
default is non-empty. -/
theorem jsOrS_ne_empty (o : Option String) (d : String) (hd : d ≠ "") :
    jsOrS o d ≠ "" := by
  cases o with
  | none => simpa [jsOrS] using hd
  | some s =>
    by_cases hs : s = ""
    · simpa [jsOrS, hs] using hd
    · simpa [jsOrS, hs] using hs

theorem guestDefault_ne_empty (i : ℕ) : ("GUEST" ++ toString (i + 1)) ≠ "" := by
  intro h
  have h5 := congrArg String.length h
  rw [String.length_append] at h5
  rw [show String.length "GUEST" = 5 from rfl, show String.length "" = 0 from rfl] at h5
  omega

/-- C7 (code_bug): the spec requires a row with neither a resolvable number
nor section to abort the whole import, and the code carries exactly such a
check (line 1896) with a descriptive error message — but the defaults
`GUEST{n}` and `未分配` assigned on lines 1893–1894 are never falsy, so the
check is dead and every row is accepted: an entirely empty row imports as
`{number := GUESTn, assignedSection := 未分配}`, and `parseRow` can never
return the missing-field error. -/
theorem C7_missing_fields_check_is_unreachable :
    parseExcelData 0 [(⟨none, none, none, none, none, none, none, none, none,
        none, none, none⟩ : ExcelRow)]
      = Except.ok [⟨"G1", "GUEST1", "", none, "未分配", none⟩]
    ∧ (∀ (i : ℕ) (row : ExcelRow), ∃ g, parseRow i row = Except.ok g) := by
  constructor
  · rfl
  · intro i row
    have h1 : jsOrS row.numCn (jsOrS row.numEn (jsOrS row.numCap
        ("GUEST" ++ toString (i + 1)))) ≠ "" :=
      jsOrS_ne_empty _ _ (jsOrS_ne_empty _ _ (jsOrS_ne_empty _ _ (guestDefault_ne_empty i)))
    have h2 : jsOrS row.secCn (jsOrS row.secEn (jsOrS row.secCap "未分配")) ≠ "" :=
      jsOrS_ne_empty _ _ (jsOrS_ne_empty _ _ (jsOrS_ne_empty _ _ (by decide)))
    unfold parseRow
    rw [if_neg (by push_neg; exact ⟨h1, h2⟩)]
    exact ⟨_, rfl⟩

/-! ### Keyed-list helpers -/

theorem find?_key_eq_some {α : Type} (key : α → String) (l : List α)
    (hnd : (l.map key).Nodup) (a : α) (ha : a ∈ l) :
    l.find? (fun x => key x == key a) = some a := by
  induction l with
  | nil => cases ha
  | cons b t ih =>
    simp only [List.map_cons, List.nodup_cons] at hnd
    by_cases hb : key b = key a
    · have hab : b = a := by
        rcases List.mem_cons.mp ha with rfl | hat
        · rfl
        · exfalso
          exact hnd.1 (hb ▸ List.mem_map_of_mem key hat)
      subst hab
      simp [List.find?]
    · have hat : a ∈ t := by
        rcases List.mem_cons.mp ha with rfl | hat
        · exact absurd rfl hb
        · exact hat
      rw [List.find?]
      rw [show (key b == key a) = false by simpa using hb]
      exact ih hnd.2 hat

theorem find?_map_key_pres {α : Type} (key : α → String) (f : α → α)
    (hf : ∀ x, key (f x) = key x) (l : List α) (i : String) :
    (l.map f).find? (fun x => key x == i) = (l.find? (fun x => key x == i)).map f := by
  induction l with
  | nil => rfl
  | cons b t ih =>
    simp only [List.map_cons, List.find?]
    rw [hf b]
    by_cases hb : key b = i
    · rw [show (key b == i) = true by simpa using hb]
      rfl
    · rw [show (key b == i) = false by simpa using hb]
      exact ih

theorem map_key_pres {α : Type} (key : α → String) (f : α → α)
    (hf : ∀ x, key (f x) = key x) (l : List α) :
    (l.map f).map key = l.map key := by
  rw [List.map_map]
  apply List.map_congr_left
  intro x _
  exact hf x

theorem map_eq_self_of_mem {α : Type} (f : α → α) (l : List α)
    (h : ∀ x ∈ l, f x = x) : l.map f = l := by
  induction l with
  | nil => rfl
  | cons b t ih =>
    rw [List.map_cons, h b (List.mem_cons_self b t), ih fun x hx => h x (List.mem_cons.mpr (Or.inr hx))]

/-- C10 (confirmed): running the roster assignment and then `resetSeats`
leaves every seat's guest-linkage fields null (and occupancy false); the
guest collection itself is replaced by the empty list, so in particular
every remaining guest's `seatId` is null. -/
theorem C10_assign_then_reset_clears_all (seats : List Seat) (guests : List Guest)
    (sectionNames : List String) (colors : String → Option String) :
    (∀ s ∈ (resetSeats (assignGuestsToSeats seats guests sectionNames colors).seats).1,
      s.guestId = none ∧ s.guestNumber = none ∧ s.guestName = none ∧ s.guestUnit = none
      ∧ s.assignedSection = none ∧ s.sectionColor = none ∧ s.occupied = false)
    ∧ (resetSeats (assignGuestsToSeats seats guests sectionNames colors).seats).2 = []
    ∧ (∀ g ∈ (resetSeats (assignGuestsToSeats seats guests sectionNames colors).seats).2,
      g.seatId = none) := by
  refine ⟨?_, rfl, ?_⟩
  · intro s hs
    unfold resetSeats at hs
    rcases List.mem_map.mp hs with ⟨t, _, rfl⟩
    exact ⟨rfl, rfl, rfl, rfl, rfl, rfl, rfl⟩
  · intro g hg
    simp [resetSeats] at hg

/-- C6 counterexample: section "A" has two seats and only one matching guest,
so it retains spare capacity (seat "A2" stays empty), yet the unmatched
guest G1 is seated in section "B" — not in the first section with spare
capacity, contradicting the claim as stated. -/
theorem C6_counterexample_unmatched_guest_skips_spare_capacity :
    ((assignGuestsToSeats c6Seats c6Guests ["A", "B"] (fun _ => none)).guests.find?
        (fun g => g.id == "G1")).map (fun g => g.seatId) = some (some "B1")
    ∧ ((assignGuestsToSeats c6Seats c6Guests ["A", "B"] (fun _ => none)).seats.find?
        (fun s => s.id == "A2")).map (fun s => s.guestId) = some none := by
  constructor
  · rfl
  · rfl

/-- C6 (corrected): the actual overflow policy.  When the assignment loop
processes a section whose name matches no pending guest and the pending pool
is non-empty, the single guest at the head of the pool — whatever its target
section — is assigned to the section's first seat, the guest's `seatId`
points back at that seat, and the guest leaves the pending pool.  An
unmatched guest is therefore drained one per such section, not into the
first section with spare capacity. -/
theorem C6_overflow_drains_head_of_pool_into_matchless_section
    (colors : String → Option String) (st : AssignState) (name : String)
    (s0 : Seat) (srest : List Seat) (gid : String) (grest : List String) (g : Guest)
    (hseats : st.seats.filter (fun s => s.sectionName == name) = s0 :: srest)
    (hpool : st.unassigned = gid :: grest)
    (hmatch : sectionPending st name = [])
    (hg : g ∈ st.guests) (hgid : g.id = gid)
    (hgnd : (st.guests.map (fun x => x.id)).Nodup)
    (hsnd : (st.seats.map (fun x => x.id)).Nodup) :
    ((assignSection colors st name).seats.find? (fun s => s.id == s0.id)).map
        (fun s => s.guestId) = some (some gid)
    ∧ ((assignSection colors st name).guests.find? (fun x => x.id == gid)).map
        (fun x => x.seatId) = some (some s0.id)
    ∧ (assignSection colors st name).unassigned = grest := by
  have hs0mem : s0 ∈ st.seats :=
    List.mem_of_mem_filter (hseats ▸ List.mem_cons_self s0 srest)
  have hred : assignSection colors st name = assignPair colors st (s0.id, gid) := by
    unfold assignSection
    rw [hmatch, hseats, hpool]
    rw [show (([] : List String).isEmpty) = true from rfl]
    simp only [if_pos]
    rw [show (gid :: grest).take 1 = [gid] from rfl]
    rw [List.map_cons, List.zip_cons_cons, List.zip_nil_right]
    rw [List.foldl_cons, List.foldl_nil]
  have hgfind : st.guests.find? (fun x => x.id == gid) = some g := by
    have h := find?_key_eq_some (fun x => x.id) st.guests hgnd g hg
    simp only at h
    rw [hgid] at h
    exact h
  rw [hred]
  unfold assignPair
  rw [hgfind]
  dsimp only
  refine ⟨?_, ?_, ?_⟩
  · rw [find?_map_key_pres (fun s => s.id) (linkSeat colors g s0.id)
      (fun x => by unfold linkSeat; split <;> rfl) st.seats s0.id]
    rw [find?_key_eq_some (fun s => s.id) st.seats hsnd s0 hs0mem]
    dsimp only [Option.map]
    unfold linkSeat
    rw [if_pos rfl]
    show some (some g.id) = some (some gid)
    rw [hgid]
  · rw [find?_map_key_pres (fun x => x.id) (linkGuest g s0.id)
      (fun x => by unfold linkGuest; split <;> rfl) st.guests gid]
    rw [hgfind]
    dsimp only [Option.map]
    unfold linkGuest
    rw [if_pos rfl]
  · rw [hpool, hgid, List.erase_cons_head]

/-- C6 witness: one section "B" with one seat, one pending guest targeting
the unknown section "X": the guest is drained into "B"'s first seat. -/
theorem C6_overflow_drains_head_of_pool_into_matchless_section_witness :
    ((assignSection (fun _ => none)
        ⟨[⟨"B1", "B", 1, 1, false, false, none, none, none, none, none, none, false⟩],
          [⟨"G1", "1", "", none, "X", none⟩], ["G1"]⟩ "B").seats.find?
        (fun s => s.id == "B1")).map (fun s => s.guestId) = some (some "G1")
    ∧ ((assignSection (fun _ => none)
        ⟨[⟨"B1", "B", 1, 1, false, false, none, none, none, none, none, none, false⟩],
          [⟨"G1", "1", "", none, "X", none⟩], ["G1"]⟩ "B").guests.find?
        (fun x => x.id == "G1")).map (fun x => x.seatId) = some (some "B1")
    ∧ (assignSection (fun _ => none)
        ⟨[⟨"B1", "B", 1, 1, false, false, none, none, none, none, none, none, false⟩],
          [⟨"G1", "1", "", none, "X", none⟩], ["G1"]⟩ "B").unassigned = [] := by
  exact C6_overflow_drains_head_of_pool_into_matchless_section (fun _ => none)
    ⟨[⟨"B1", "B", 1, 1, false, false, none, none, none, none, none, none, false⟩],
      [⟨"G1", "1", "", none, "X", none⟩], ["G1"]⟩ "B"
    ⟨"B1", "B", 1, 1, false, false, none, none, none, none, none, none, false⟩ []
    "G1" [] ⟨"G1", "1", "", none, "X", none⟩
    (by decide) (by decide) (by decide) (by decide) (by decide) (by decide) (by decide)

/-! ### Swap lemmas -/

theorem copyLinks_guestId (x y : Seat) : (copyLinks x y).guestId = x.guestId := rfl

theorem copyLinks_id (x y : Seat) : (copyLinks x y).id = y.id := rfl

theorem copyLinks_copyLinks (x y z : Seat) : copyLinks x (copyLinks y z) = copyLinks x z := rfl

theorem copyLinks_src_copyLinks (x y z : Seat) :
    copyLinks (copyLinks x y) z = copyLinks x z := rfl

theorem copyLinks_self (x : Seat) : copyLinks x x = x := rfl

theorem guest_set_seatId_self (g : Guest) (v : Option String) (h : g.seatId = v) :
    ({ g with seatId := v } : Guest) = g := by
  rw [← h]

theorem updateGuestSeat_eq_map (guests : List Guest) (og : Option String) (sid : String) :
    updateGuestSeat guests og sid
      = guests.map (fun g => if some g.id = og then { g with seatId := some sid } else g) := by
  cases og with
  | none =>
    unfold updateGuestSeat
    rw [map_eq_self_of_mem]
    intro x _
    rw [if_neg (by simp)]
  | some g0 =>
    unfold updateGuestSeat
    apply List.map_congr_left
    intro x _
    by_cases h : x.id = g0
    · rw [if_pos h, if_pos (by rw [h])]
    · rw [if_neg h, if_neg (by simpa using h)]

theorem swapGuestSeats_found (seats : List Seat) (guests : List Guest) (idA idB : String)
    (a b : Seat)
    (hfa : seats.find? (fun s => s.id == idA) = some a)
    (hfb : seats.find? (fun s => s.id == idB) = some b) :
    swapGuestSeats seats guests idA idB
      = (seats.map (fun s => if s.id = idA then copyLinks b s
          else if s.id = idB then copyLinks a s else s),
        updateGuestSeat (updateGuestSeat guests b.guestId idA) a.guestId idB) := by
  unfold swapGuestSeats
  rw [hfa, hfb]

theorem swapGuestSeats_notfound (seats : List Seat) (guests : List Guest) (idA idB : String)
    (h : seats.find? (fun s => s.id == idA) = none
      ∨ seats.find? (fun s => s.id == idB) = none) :
    swapGuestSeats seats guests idA idB = (seats, guests) := by
  unfold swapGuestSeats
  rcases hfa : seats.find? (fun s => s.id == idA) with _ | a
  · rw [hfa]
  · rcases hfb : seats.find? (fun s => s.id == idB) with _ | b
    · rw [hfa, hfb]
    · rcases h with h | h
      · rw [hfa] at h
        cases h
      · rw [hfb] at h
        cases h

theorem find?_id_props (seats : List Seat) (i : String) (a : Seat)
    (hf : seats.find? (fun s => s.id == i) = some a) : a ∈ seats ∧ a.id = i :=
  ⟨List.mem_of_find?_eq_some hf, by have := List.find?_some hf; simpa using this⟩

theorem swapGuestSeats_preserves_consistent (seats : List Seat) (guests : List Guest)
    (idA idB : String)
    (hsnd : (seats.map (fun s => s.id)).Nodup)
    (hgnd : (guests.map (fun g => g.id)).Nodup)
    (hcons : Consistent seats guests) :
    Consistent (swapGuestSeats seats guests idA idB).1 (swapGuestSeats seats guests idA idB).2 := by
  rcases hfa : seats.find? (fun s => s.id == idA) with _ | a
  · rw [swapGuestSeats_notfound seats guests idA idB (Or.inl hfa)]
    exact hcons
  rcases hfb : seats.find? (fun s => s.id == idB) with _ | b
  · rw [swapGuestSeats_notfound seats guests idA idB (Or.inr hfb)]
    exact hcons
  obtain ⟨hamem, haid⟩ := find?_id_props seats idA a hfa
  obtain ⟨hbmem, hbid⟩ := find?_id_props seats idB b hfb
  have guniq : ∀ g1 ∈ guests, ∀ g2 ∈ guests, g1.id = g2.id → g1 = g2 := fun g1 h1 g2 h2 h =>
    inj_on_of_key_nodup (fun x => x.id) guests hgnd h1 h2 h
  have huniqA : ∀ s ∈ seats, s.id = idA → s = a := fun s hs h =>
    inj_on_of_key_nodup (fun x => x.id) seats hsnd hs hamem
      (by show s.id = a.id; rw [h, haid])
  have huniqB : ∀ s ∈ seats, s.id = idB → s = b := fun s hs h =>
    inj_on_of_key_nodup (fun x => x.id) seats hsnd hs hbmem
      (by show s.id = b.id; rw [h, hbid])
  have hgA : ∀ ga, a.guestId = some ga → ∃ gA ∈ guests, gA.id = ga ∧ gA.seatId = some idA := by
    intro ga hag
    rcases hcons.1 a hamem with hnone | ⟨gA, hm, hid, hseat⟩
    · rw [hag] at hnone
      simp at hnone
    · rw [hag] at hid
      exact ⟨gA, hm, by simpa using hid, by rw [← haid]; exact hseat⟩
  have hgB : ∀ gb, b.guestId = some gb → ∃ gB ∈ guests, gB.id = gb ∧ gB.seatId = some idB := by
    intro gb hbg
    rcases hcons.1 b hbmem with hnone | ⟨gB, hm, hid, hseat⟩
    · rw [hbg] at hnone
      simp at hnone
    · rw [hbg] at hid
      exact ⟨gB, hm, by simpa using hid, by rw [← hbid]; exact hseat⟩
  rw [swapGuestSeats_found seats guests idA idB a b hfa hfb]
  dsimp only
  rw [updateGuestSeat_eq_map, updateGuestSeat_eq_map, List.map_map]
  by_cases hAB : idA = idB
  · subst hAB
    have hab : a = b := by
      rw [hfa] at hfb
      injection hfb
    subst hab
    have hS : seats.map (fun s => if s.id = idA then copyLinks a s
        else if s.id = idA then copyLinks a s else s) = seats := by
      apply map_eq_self_of_mem
      intro s hs
      by_cases h1 : s.id = idA
      · rw [if_pos h1, huniqA s hs h1, copyLinks_self]
      · rw [if_neg h1, if_neg h1]
    rw [hS]
    have hG : guests.map ((fun g => if some g.id = a.guestId then { g with seatId := some idA } else g)
        ∘ (fun g => if some g.id = a.guestId then { g with seatId := some idA } else g)) = guests := by
      apply map_eq_self_of_mem
      intro g hg
      dsimp only [Function.comp_apply]
      by_cases h1 : some g.id = a.guestId
      · obtain ⟨gA, hm, hid, hseat⟩ := hgA g.id h1.symm
        have hEq : gA = g := guniq gA hm g hg hid
        rw [hEq] at hseat
        rw [if_pos h1]
        rw [if_pos (show some ({ g with seatId := some idA } : Guest).id = a.guestId from h1)]
        exact guest_set_seatId_self g (some idA) hseat
      · rw [if_neg h1, if_neg h1]
    rw [hG]
    exact hcons
  · have hgagb : ∀ ga gb, a.guestId = some ga → b.guestId = some gb → ga ≠ gb := by
      intro ga gb hag hbg heq
      obtain ⟨gA, hgAm, hgAid, hgAseat⟩ := hgA ga hag
      obtain ⟨gB, hgBm, hgBid, hgBseat⟩ := hgB gb hbg
      have hEq : gA = gB := guniq gA hgAm gB hgBm (by rw [hgAid, hgBid, heq])
      rw [hEq, hgBseat] at hgAseat
      exact hAB (Option.some.inj hgAseat).symm
    constructor
    · intro s' hs'
      rcases List.mem_map.mp hs' with ⟨s, hs, rfl⟩
      by_cases h1 : s.id = idA
      · rw [if_pos h1]
        rcases hbg : b.guestId with _ | gb
        · left
          rw [copyLinks_guestId, hbg]
        · right
          obtain ⟨gB, hgBm, hgBid, hgBseat⟩ := hgB gb hbg
          have hnotA : ¬ (some gB.id = a.guestId) := by
            rcases hag : a.guestId with _ | ga
            · simp
            · intro hcc
              have hgbga : gb = ga := by
                rw [← hgBid]
                exact Option.some.inj hcc
              exact hgagb ga gb hag hbg hgbga.symm
          have hval : ((fun g => if some g.id = a.guestId then { g with seatId := some idB } else g)
              ∘ (fun g => if some g.id = some gb then { g with seatId := some idA } else g)) gB
              = { gB with seatId := some idA } := by
            dsimp only [Function.comp_apply]
            rw [if_pos (show some gB.id = some gb by rw [hgBid])]
            rw [if_neg (show ¬ (some ({ gB with seatId := some idA } : Guest).id = a.guestId)
              from hnotA)]
          refine ⟨{ gB with seatId := some idA },
            by rw [← hval]; exact List.mem_map_of_mem _ hgBm, ?_, ?_⟩
          · show some gB.id = (copyLinks b s).guestId
            rw [copyLinks_guestId, hgBid, hbg]
          · show some idA = some ((copyLinks b s).id)
            rw [copyLinks_id, h1]
      · by_cases h2 : s.id = idB
        · rw [if_neg h1, if_pos h2]
          rcases hag : a.guestId with _ | ga
          · left
            rw [copyLinks_guestId, hag]
          · right
            obtain ⟨gA, hgAm, hgAid, hgAseat⟩ := hgA ga hag
            have hnotB : ¬ (some gA.id = b.guestId) := by
              rcases hbg : b.guestId with _ | gb
              · simp
              · intro hcc
                have hgagb2 : ga = gb := by
                  rw [← hgAid]
                  exact Option.some.inj hcc
                exact hgagb ga gb hag hbg hgagb2
            have hval : ((fun g => if some g.id = some ga then { g with seatId := some idB } else g)
                ∘ (fun g => if some g.id = b.guestId then { g with seatId := some idA } else g)) gA
                = { gA with seatId := some idB } := by
              dsimp only [Function.comp_apply]
              rw [if_neg hnotB]
              rw [if_pos (show some gA.id = some ga by rw [hgAid])]
            refine ⟨{ gA with seatId := some idB },
              by rw [← hval]; exact List.mem_map_of_mem _ hgAm, ?_, ?_⟩
            · show some gA.id = (copyLinks a s).guestId
              rw [copyLinks_guestId, hgAid, hag]
            · show some idB = some ((copyLinks a s).id)
              rw [copyLinks_id, h2]
        · rw [if_neg h1, if_neg h2]
          rcases hsg : s.guestId with _ | gid
          · left
            rfl
          · right
            rcases hcons.1 s hs with hnone | ⟨g, hgm, hgid, hgseat⟩
            · rw [hsg] at hnone
              simp at hnone
            · have hne_b : some g.id ≠ b.guestId := by
                intro hc
                obtain ⟨gB, hgBm, hgBid, hgBseat⟩ := hgB g.id hc.symm
                have hEq : gB = g := guniq gB hgBm g hgm hgBid
                rw [hEq] at hgBseat
                rw [hgseat] at hgBseat
                exact h2 (Option.some.inj hgBseat)
              have hne_a : some g.id ≠ a.guestId := by
                intro hc
                obtain ⟨gA, hgAm, hgAid, hgAseat⟩ := hgA g.id hc.symm
                have hEq : gA = g := guniq gA hgAm g hgm hgAid
                rw [hEq] at hgAseat
                rw [hgseat] at hgAseat
                exact h1 (Option.some.inj hgAseat)
              have hval : ((fun g => if some g.id = a.guestId then { g with seatId := some idB } else g)
                  ∘ (fun g => if some g.id = b.guestId then { g with seatId := some idA } else g)) g
                  = g := by
                dsimp only [Function.comp_apply]
                rw [if_neg hne_b, if_neg hne_a]
              refine ⟨g, by rw [← hval]; exact List.mem_map_of_mem _ hgm, ?_, ?_⟩
              · show some g.id = some gid
                rw [← hsg]
                exact hgid
              · show g.seatId = some s.id
                exact hgseat
    · intro g' hg'
      rcases List.mem_map.mp hg' with ⟨g, hgm, rfl⟩
      dsimp only [Function.comp_apply]
      by_cases hb1 : some g.id = b.guestId
      · right
        rw [if_pos hb1]
        have hnotA : ¬ (some ({ g with seatId := some idA } : Guest).id = a.guestId) := by
          rcases hag : a.guestId with _ | ga
          · simp
          · intro hcc
            rcases hbg : b.guestId with _ | gb
            · rw [hbg] at hb1
              simp at hb1
            · have h3 : g.id = gb := by
                rw [hbg] at hb1
                exact Option.some.inj hb1
              have h4 : g.id = ga := Option.some.inj hcc
              exact hgagb ga gb hag hbg (by rw [← h3, ← h4])
        rw [if_neg hnotA]
        refine ⟨_, List.mem_map_of_mem _ hamem, ?_, ?_⟩
        · rw [if_pos haid]
          show some ((copyLinks b a).id) = some idA
          rw [copyLinks_id, haid]
        · rw [if_pos haid]
          show (copyLinks b a).guestId = some g.id
          rw [copyLinks_guestId]
          exact hb1.symm
      · rw [if_neg hb1]
        by_cases ha1 : some g.id = a.guestId
        · right
          rw [if_pos ha1]
          have hbna : ¬ (b.id = idA) := by
            rw [hbid]
            exact fun hc => hAB hc.symm
          refine ⟨_, List.mem_map_of_mem _ hbmem, ?_, ?_⟩
          · rw [if_neg hbna, if_pos hbid]
            show some ((copyLinks a b).id) = some idB
            rw [copyLinks_id, hbid]
          · rw [if_neg hbna, if_pos hbid]
            show (copyLinks a b).guestId = some g.id
            rw [copyLinks_guestId]
            exact ha1.symm
        · rw [if_neg ha1]
          rcases hgs : g.seatId with _ | sid
          · left
            rfl
          · right
            rcases hcons.2 g hgm with hnone | ⟨s, hsm, hsid, hsg⟩
            · rw [hgs] at hnone
              simp at hnone
            · have hs1 : s.id ≠ idA := by
                intro hc
                have hEq : s = a := huniqA s hsm hc
                rw [hEq] at hsg
                exact ha1 hsg.symm
              have hs2 : s.id ≠ idB := by
                intro hc
                have hEq : s = b := huniqB s hsm hc
                rw [hEq] at hsg
                exact hb1 hsg.symm
              refine ⟨_, List.mem_map_of_mem _ hsm, ?_, ?_⟩
              · rw [if_neg hs1, if_neg hs2]
                show some s.id = some sid
                rw [← hgs]
                exact hsid
              · rw [if_neg hs1, if_neg hs2]
                exact hsg

/-- C5 counterexample: starting from a state where seat "A" links guest G1
but G1's `seatId` is null, swapping "A" and "B" twice leaves G1's `seatId`
at `some "A"` — not its original `none` — so the claim as stated (for any
two seats, with no consistency premise) is false. -/
theorem C5_counterexample_double_swap_rewrites_stale_seatId :
    ((swapGuestSeats (swapGuestSeats c5Seats c5Guests "A" "B").1
        (swapGuestSeats c5Seats c5Guests "A" "B").2 "A" "B").2.find?
        (fun g => g.id == "G1")).map (fun g => g.seatId) = some (some "A")
    ∧ (c5Guests.find? (fun g => g.id == "G1")).map (fun g => g.seatId) = some none := by
  exact ⟨rfl, rfl⟩

/-- C5 (corrected): swapping the same two seat ids twice restores the seat
collection exactly (all six guest-linkage fields of both seats, and every
other seat) with no precondition beyond unique seat ids; the two linked
guests' `seatId` values are restored provided the bidirectional linkage
invariant held initially — in that case the whole guest collection is
restored exactly.  This covers seats with no guest (their "no guest" state
swaps and swaps back). -/
theorem C5_double_swap_restores_state (seats : List Seat) (guests : List Guest)
    (idA idB : String)
    (hsnd : (seats.map (fun s => s.id)).Nodup)
    (hgnd : (guests.map (fun g => g.id)).Nodup) :
    (swapGuestSeats (swapGuestSeats seats guests idA idB).1
      (swapGuestSeats seats guests idA idB).2 idA idB).1 = seats
    ∧ (Consistent seats guests →
      (swapGuestSeats (swapGuestSeats seats guests idA idB).1
        (swapGuestSeats seats guests idA idB).2 idA idB).2 = guests) := by
  rcases hfa : seats.find? (fun s => s.id == idA) with _ | a
  · rw [swapGuestSeats_notfound seats guests idA idB (Or.inl hfa)]
    dsimp only
    rw [swapGuestSeats_notfound seats guests idA idB (Or.inl hfa)]
    exact ⟨rfl, fun _ => rfl⟩
  rcases hfb : seats.find? (fun s => s.id == idB) with _ | b
  · rw [swapGuestSeats_notfound seats guests idA idB (Or.inr hfb)]
    dsimp only
    rw [swapGuestSeats_notfound seats guests idA idB (Or.inr hfb)]
    exact ⟨rfl, fun _ => rfl⟩
  obtain ⟨hamem, haid⟩ := find?_id_props seats idA a hfa
  obtain ⟨hbmem, hbid⟩ := find?_id_props seats idB b hfb
  have guniq : ∀ g1 ∈ guests, ∀ g2 ∈ guests, g1.id = g2.id → g1 = g2 := fun g1 h1 g2 h2 h =>
    inj_on_of_key_nodup (fun x => x.id) guests hgnd h1 h2 h
  have huniqA : ∀ s ∈ seats, s.id = idA → s = a := fun s hs h =>
    inj_on_of_key_nodup (fun x => x.id) seats hsnd hs hamem
      (by show s.id = a.id; rw [h, haid])
  have huniqB : ∀ s ∈ seats, s.id = idB → s = b := fun s hs h =>
    inj_on_of_key_nodup (fun x => x.id) seats hsnd hs hbmem
      (by show s.id = b.id; rw [h, hbid])
  rw [swapGuestSeats_found seats guests idA idB a b hfa hfb]
  dsimp only
  by_cases hAB : idA = idB
  · subst hAB
    have hab : a = b := by
      rw [hfa] at hfb
      injection hfb
    subst hab
    have hS : seats.map (fun s => if s.id = idA then copyLinks a s
        else if s.id = idA then copyLinks a s else s) = seats := by
      apply map_eq_self_of_mem
      intro s hs
      by_cases h1 : s.id = idA
      · rw [if_pos h1, huniqA s hs h1, copyLinks_self]
      · rw [if_neg h1, if_neg h1]
    rw [hS]
    rw [swapGuestSeats_found seats _ idA idA a a hfa hfa]
    dsimp only
    rw [hS]
    refine ⟨rfl, ?_⟩
    intro hcons
    have hgA : ∀ ga, a.guestId = some ga → ∃ gA ∈ guests, gA.id = ga ∧ gA.seatId = some idA := by
      intro ga hag
      rcases hcons.1 a hamem with hnone | ⟨gA, hm, hid, hseat⟩
      · rw [hag] at hnone
        simp at hnone
      · rw [hag] at hid
        exact ⟨gA, hm, by simpa using hid, by rw [← haid]; exact hseat⟩
    have hG : updateGuestSeat (updateGuestSeat guests a.guestId idA) a.guestId idA = guests := by
      rw [updateGuestSeat_eq_map, updateGuestSeat_eq_map, List.map_map]
      apply map_eq_self_of_mem
      intro g hg
      dsimp only [Function.comp_apply]
      by_cases h1 : some g.id = a.guestId
      · obtain ⟨gA, hm, hid, hseat⟩ := hgA g.id h1.symm
        have hEq : gA = g := guniq gA hm g hg hid
        rw [hEq] at hseat
        rw [if_pos h1]
        rw [if_pos (show some ({ g with seatId := some idA } : Guest).id = a.guestId from h1)]
        exact guest_set_seatId_self g (some idA) hseat
      · rw [if_neg h1, if_neg h1]
    rw [hG, hG]
  · have hba : ¬ (b.id = idA) := by
      rw [hbid]
      exact fun hc => hAB hc.symm
    have hkeyS : ∀ x : Seat, (fun t => t.id)
        ((fun s => if s.id = idA then copyLinks b s
          else if s.id = idB then copyLinks a s else s) x) = (fun t => t.id) x := by
      intro x
      dsimp only
      split
      · rfl
      · split
        · rfl
        · rfl
    have hfa2 : (seats.map (fun s => if s.id = idA then copyLinks b s
        else if s.id = idB then copyLinks a s else s)).find? (fun s => s.id == idA)
        = some (copyLinks b a) := by
      rw [find?_map_key_pres (fun t => t.id) _ hkeyS seats idA, hfa]
      dsimp only [Option.map]
      rw [if_pos haid]
    have hfb2 : (seats.map (fun s => if s.id = idA then copyLinks b s
        else if s.id = idB then copyLinks a s else s)).find? (fun s => s.id == idB)
        = some (copyLinks a b) := by
      rw [find?_map_key_pres (fun t => t.id) _ hkeyS seats idB, hfb]
      dsimp only [Option.map]
      rw [if_neg hba, if_pos hbid]
    rw [swapGuestSeats_found _ _ idA idB (copyLinks b a) (copyLinks a b) hfa2 hfb2]
    dsimp only
    constructor
    · rw [List.map_map]
      apply map_eq_self_of_mem
      intro s hs
      dsimp only [Function.comp_apply]
      by_cases h1 : s.id = idA
      · rw [if_pos h1]
        rw [if_pos (show (copyLinks b s).id = idA by rw [copyLinks_id]; exact h1)]
        rw [copyLinks_src_copyLinks, copyLinks_copyLinks]
        rw [huniqA s hs h1, copyLinks_self]
      · by_cases h2 : s.id = idB
        · rw [if_neg h1, if_pos h2]
          rw [if_neg (show ¬ ((copyLinks a s).id = idA) by rw [copyLinks_id]; exact h1)]
          rw [if_pos (show (copyLinks a s).id = idB by rw [copyLinks_id]; exact h2)]
          rw [copyLinks_src_copyLinks, copyLinks_copyLinks]
          rw [huniqB s hs h2, copyLinks_self]
        · rw [if_neg h1, if_neg h2, if_neg h1, if_neg h2]
    · intro hcons
      have hgA : ∀ ga, a.guestId = some ga → ∃ gA ∈ guests, gA.id = ga ∧ gA.seatId = some idA := by
        intro ga hag
        rcases hcons.1 a hamem with hnone | ⟨gA, hm, hid, hseat⟩
        · rw [hag] at hnone
          simp at hnone
        · rw [hag] at hid
          exact ⟨gA, hm, by simpa using hid, by rw [← haid]; exact hseat⟩
      have hgB : ∀ gb, b.guestId = some gb → ∃ gB ∈ guests, gB.id = gb ∧ gB.seatId = some idB := by
        intro gb hbg
        rcases hcons.1 b hbmem with hnone | ⟨gB, hm, hid, hseat⟩
        · rw [hbg] at hnone
          simp at hnone
        · rw [hbg] at hid
          exact ⟨gB, hm, by simpa using hid, by rw [← hbid]; exact hseat⟩
      have hgagb : ∀ ga gb, a.guestId = some ga → b.guestId = some gb → ga ≠ gb := by
        intro ga gb hag hbg heq
        obtain ⟨gA, hgAm, hgAid, hgAseat⟩ := hgA ga hag
        obtain ⟨gB, hgBm, hgBid, hgBseat⟩ := hgB gb hbg
        have hEq : gA = gB := guniq gA hgAm gB hgBm (by rw [hgAid, hgBid, heq])
        rw [hEq, hgBseat] at hgAseat
        exact hAB (Option.some.inj hgAseat).symm
      rw [copyLinks_guestId, copyLinks_guestId]
      rw [updateGuestSeat_eq_map, updateGuestSeat_eq_map, updateGuestSeat_eq_map,
        updateGuestSeat_eq_map, List.map_map, List.map_map, List.map_map]
      apply map_eq_self_of_mem
      intro g hg
      dsimp only [Function.comp_apply]
      by_cases h1 : some g.id = b.guestId
      · obtain ⟨gB, hm, hid, hseat⟩ := hgB g.id h1.symm
        have hEq : gB = g := guniq gB hm g hg hid
        rw [hEq] at hseat
        have h2 : ¬ (some g.id = a.guestId) := by
          rcases hag : a.guestId with _ | ga
          · simp
          · intro hcc
            rcases hbg : b.guestId with _ | gb
            · rw [hbg] at h1
              simp at h1
            · have e1 : g.id = gb := by
                rw [hbg] at h1
                exact Option.some.inj h1
              have e2 : g.id = ga := Option.some.inj hcc
              exact hgagb ga gb hag hbg (by rw [← e2, ← e1])
        rw [if_pos h1, if_neg h2, if_neg h2, if_pos h1]
        exact guest_set_seatId_self g (some idB) hseat
      · by_cases h2 : some g.id = a.guestId
        · obtain ⟨gA, hm, hid, hseat⟩ := hgA g.id h2.symm
          have hEq : gA = g := guniq gA hm g hg hid
          rw [hEq] at hseat
          rw [if_neg h1, if_pos h2, if_pos h2, if_neg h1]
          exact guest_set_seatId_self g (some idA) hseat
        · rw [if_neg h1, if_neg h2, if_neg h2, if_neg h1]

/-- C5 witness: a consistent two-seat, one-guest state: both seats' linkage
fields and the guest's `seatId` are restored exactly by the double swap. -/
theorem C5_double_swap_restores_state_witness :
    (swapGuestSeats (swapGuestSeats
        [⟨"A", "S", 1, 1, false, false, some "G1", some "1", some "n", none, some "S", none, false⟩,
         ⟨"B", "S", 1, 2, false, false, none, none, none, none, none, none, false⟩]
        [⟨"G1", "1", "n", none, "S", some "A"⟩] "A" "B").1
      (swapGuestSeats
        [⟨"A", "S", 1, 1, false, false, some "G1", some "1", some "n", none, some "S", none, false⟩,
         ⟨"B", "S", 1, 2, false, false, none, none, none, none, none, none, false⟩]
        [⟨"G1", "1", "n", none, "S", some "A"⟩] "A" "B").2 "A" "B").1
      = [⟨"A", "S", 1, 1, false, false, some "G1", some "1", some "n", none, some "S", none, false⟩,
         ⟨"B", "S", 1, 2, false, false, none, none, none, none, none, none, false⟩]
    ∧ (swapGuestSeats (swapGuestSeats
        [⟨"A", "S", 1, 1, false, false, some "G1", some "1", some "n", none, some "S", none, false⟩,
         ⟨"B", "S", 1, 2, false, false, none, none, none, none, none, none, false⟩]
        [⟨"G1", "1", "n", none, "S", some "A"⟩] "A" "B").1
      (swapGuestSeats
        [⟨"A", "S", 1, 1, false, false, some "G1", some "1", some "n", none, some "S", none, false⟩,
         ⟨"B", "S", 1, 2, false, false, none, none, none, none, none, none, false⟩]
        [⟨"G1", "1", "n", none, "S", some "A"⟩] "A" "B").2 "A" "B").2
      = [⟨"G1", "1", "n", none, "S", some "A"⟩] := by
  have h := C5_double_swap_restores_state
    [⟨"A", "S", 1, 1, false, false, some "G1", some "1", some "n", none, some "S", none, false⟩,
     ⟨"B", "S", 1, 2, false, false, none, none, none, none, none, none, false⟩]
    [⟨"G1", "1", "n", none, "S", some "A"⟩] "A" "B" (by decide) (by decide)
  exact ⟨h.1, h.2 ⟨by decide, by decide⟩⟩

/-! ### C4: the assignment loop preserves the invariant -/

theorem find?_gid_props (guests : List Guest) (i : String) (g : Guest)
    (hf : guests.find? (fun x => x.id == i) = some g) : g ∈ guests ∧ g.id = i :=
  ⟨List.mem_of_find?_eq_some hf, by have := List.find?_some hf; simpa using this⟩

theorem zip_fst_sublist {α β : Type} : ∀ (l1 : List α) (l2 : List β),
    ((l1.zip l2).map Prod.fst).Sublist l1 := by
  intro l1
  induction l1 with
  | nil => intro l2; simp
  | cons a t1 ih =>
    intro l2
    cases l2 with
    | nil => simp
    | cons b t2 =>
      rw [List.zip_cons_cons, List.map_cons]
      exact List.Sublist.cons₂ a (ih t2)

theorem zip_snd_sublist {α β : Type} : ∀ (l1 : List α) (l2 : List β),
    ((l1.zip l2).map Prod.snd).Sublist l2 := by
  intro l1
  induction l1 with
  | nil => intro l2; simp
  | cons a t1 ih =>
    intro l2
    cases l2 with
    | nil => simp
    | cons b t2 =>
      rw [List.zip_cons_cons, List.map_cons]
      exact List.Sublist.cons₂ b (ih t2)

theorem AssignInv_tail (st : AssignState) (name : String) (names : List String)
    (h : AssignInv st (name :: names)) : AssignInv st names :=
  ⟨h.cons, h.seatsND, h.guestsND, h.pendND, h.pendFree,
    fun s hs hn => h.sectFree s hs (List.mem_cons_of_mem name hn)⟩

theorem AssignInv_nil (st : AssignState) (names : List String)
    (h : AssignInv st names) : AssignInv st [] :=
  ⟨h.cons, h.seatsND, h.guestsND, h.pendND, h.pendFree,
    fun _ _ hn => absurd hn (List.not_mem_nil _)⟩

theorem linkSeat_id (colors : String → Option String) (g : Guest) (sid : String) (s : Seat) :
    (linkSeat colors g sid s).id = s.id := by
  unfold linkSeat
  split <;> rfl

theorem linkSeat_sectionName (colors : String → Option String) (g : Guest) (sid : String)
    (s : Seat) : (linkSeat colors g sid s).sectionName = s.sectionName := by
  unfold linkSeat
  split <;> rfl

theorem linkSeat_of_eq (colors : String → Option String) (g : Guest) (sid : String) (s : Seat)
    (h : s.id = sid) :
    linkSeat colors g sid s
      = { s with
          guestId := some g.id, guestNumber := some g.number,
          guestName := some g.name, guestUnit := g.unit,
          assignedSection := some g.assignedSection,
          sectionColor := colors g.assignedSection } := by
  unfold linkSeat
  rw [if_pos h]

theorem linkSeat_of_ne (colors : String → Option String) (g : Guest) (sid : String) (s : Seat)
    (h : ¬ s.id = sid) : linkSeat colors g sid s = s := by
  unfold linkSeat
  rw [if_neg h]

theorem linkGuest_id (g : Guest) (sid : String) (x : Guest) :
    (linkGuest g sid x).id = x.id := by
  unfold linkGuest
  split <;> rfl

theorem linkGuest_of_eq (g : Guest) (sid : String) (x : Guest) (h : x.id = g.id) :
    linkGuest g sid x = { x with seatId := some sid } := by
  unfold linkGuest
  rw [if_pos h]

theorem linkGuest_of_ne (g : Guest) (sid : String) (x : Guest) (h : ¬ x.id = g.id) :
    linkGuest g sid x = x := by
  unfold linkGuest
  rw [if_neg h]

/-- One assignment step preserves the invariant, provided the guest id is
still pending and the seat id names an existing free seat of an
already-being-processed section. -/
theorem assignPair_inv (colors : String → Option String) (st : AssignState)
    (sid gid : String) (names : List String)
    (hinv : AssignInv st names)
    (hgid : gid ∈ st.unassigned)
    (hseat : ∃ s0 ∈ st.seats, s0.id = sid ∧ s0.guestId = none ∧ s0.sectionName ∉ names) :
    AssignInv (assignPair colors st (sid, gid)) names := by
  unfold assignPair
  rcases hf : st.guests.find? (fun x => x.id == (sid, gid).2) with _ | g
  · rw [hf]
    exact hinv
  rw [hf]
  show AssignInv
    ⟨st.seats.map (linkSeat colors g sid), st.guests.map (linkGuest g sid),
      st.unassigned.erase g.id⟩ names
  obtain ⟨hgm, hgi⟩ := find?_gid_props st.guests gid g hf
  obtain ⟨s0, hs0m, hs0id, hs0free, hs0sect⟩ := hseat
  have hgfree : g.seatId = none := hinv.pendFree g hgm (by rw [hgi]; exact hgid)
  refine ⟨⟨?_, ?_⟩, ?_, ?_, ?_, ?_, ?_⟩
  · intro s' hs'
    rcases List.mem_map.mp hs' with ⟨s, hs, rfl⟩
    by_cases h1 : s.id = sid
    · right
      rw [linkSeat_of_eq colors g sid s h1]
      refine ⟨{ g with seatId := some sid }, ?_, rfl, ?_⟩
      · rw [← linkGuest_of_eq g sid g rfl]
        exact List.mem_map_of_mem _ hgm
      · show some sid = some s.id
        rw [h1]
    · rw [linkSeat_of_ne colors g sid s h1]
      rcases hsg : s.guestId with _ | gid2
      · left
        rfl
      · right
        rcases hinv.cons.1 s hs with hnone | ⟨g2, hg2m, hg2id, hg2seat⟩
        · rw [hsg] at hnone
          exact Option.noConfusion hnone
        · have hne : ¬ g2.id = g.id := by
            intro hcc
            have hg2g : g2 = g :=
              inj_on_of_key_nodup (fun x => x.id) st.guests hinv.guestsND hg2m hgm hcc
            rw [hg2g, hgfree] at hg2seat
            exact Option.noConfusion hg2seat
          refine ⟨g2, ?_, ?_, ?_⟩
          · rw [← linkGuest_of_ne g sid g2 hne]
            exact List.mem_map_of_mem _ hg2m
          · rw [← hsg]
            exact hg2id
          · exact hg2seat
  · intro g' hg'
    rcases List.mem_map.mp hg' with ⟨g2, hg2m, rfl⟩
    by_cases h1 : g2.id = g.id
    · right
      rw [linkGuest_of_eq g sid g2 h1]
      refine ⟨linkSeat colors g sid s0, List.mem_map_of_mem _ hs0m, ?_, ?_⟩
      · rw [linkSeat_of_eq colors g sid s0 hs0id]
        show some s0.id = some sid
        rw [hs0id]
      · rw [linkSeat_of_eq colors g sid s0 hs0id]
        show some g.id = some g2.id
        rw [h1]
    · rw [linkGuest_of_ne g sid g2 h1]
      rcases hgs : g2.seatId with _ | sid2
      · left
        rfl
      · right
        rcases hinv.cons.2 g2 hg2m with hnone | ⟨s, hsm, hsid, hsg⟩
        · rw [hgs] at hnone
          exact Option.noConfusion hnone
        · have hne : ¬ s.id = sid := by
            intro hcc
            have hss0 : s = s0 :=
              inj_on_of_key_nodup (fun x => x.id) st.seats hinv.seatsND hsm hs0m
                (by show s.id = s0.id; rw [hcc, hs0id])
            rw [hss0, hs0free] at hsg
            exact Option.noConfusion hsg
          refine ⟨s, ?_, ?_, ?_⟩
          · rw [← linkSeat_of_ne colors g sid s hne]
            exact List.mem_map_of_mem _ hsm
          · rw [← hgs]
            exact hsid
          · exact hsg
  · rw [map_key_pres (fun s => s.id) (linkSeat colors g sid) (linkSeat_id colors g sid) st.seats]
    exact hinv.seatsND
  · rw [map_key_pres (fun x => x.id) (linkGuest g sid) (linkGuest_id g sid) st.guests]
    exact hinv.guestsND
  · exact hinv.pendND.erase g.id
  · intro g' hg' hmem
    rcases List.mem_map.mp hg' with ⟨g2, hg2m, rfl⟩
    rw [linkGuest_id g sid g2] at hmem
    by_cases h1 : g2.id = g.id
    · exact absurd h1 ((List.Nodup.mem_erase_iff hinv.pendND).mp hmem).1
    · rw [linkGuest_of_ne g sid g2 h1]
      exact hinv.pendFree g2 hg2m (List.mem_of_mem_erase hmem)
  · intro s' hs' hsect
    rcases List.mem_map.mp hs' with ⟨s, hs, rfl⟩
    rw [linkSeat_sectionName colors g sid s] at hsect
    by_cases h1 : s.id = sid
    · exfalso
      have hss0 : s = s0 :=
        inj_on_of_key_nodup (fun x => x.id) st.seats hinv.seatsND hs hs0m
          (by show s.id = s0.id; rw [h1, hs0id])
      rw [hss0] at hsect
      exact hs0sect hsect
    · rw [linkSeat_of_ne colors g sid s h1]
      exact hinv.sectFree s hs hsect

/-- A seat not targeted by the pair survives an assignment step unchanged. -/
theorem assignPair_seat_frame (colors : String → Option String) (st : AssignState)
    (sid gid : String) (s0 : Seat) (hs0 : s0 ∈ st.seats) (hne : ¬ s0.id = sid) :
    s0 ∈ (assignPair colors st (sid, gid)).seats := by
  unfold assignPair
  rcases hf : st.guests.find? (fun x => x.id == (sid, gid).2) with _ | g
  · rw [hf]
    exact hs0
  · rw [hf]
    show s0 ∈ st.seats.map (linkSeat colors g sid)
    rw [← linkSeat_of_ne colors g sid s0 hne]
    exact List.mem_map_of_mem _ hs0

/-- A pending guest id other than the one just consumed stays pending. -/
theorem assignPair_unassigned_frame (colors : String → Option String) (st : AssignState)
    (sid gid : String) (x : String) (hx : x ∈ st.unassigned) (hne : ¬ x = gid) :
    x ∈ (assignPair colors st (sid, gid)).unassigned := by
  unfold assignPair
  rcases hf : st.guests.find? (fun x => x.id == (sid, gid).2) with _ | g
  · rw [hf]
    exact hx
  · rw [hf]
    show x ∈ st.unassigned.erase g.id
    have hgi : g.id = gid := (find?_gid_props st.guests gid g hf).2
    exact (List.mem_erase_of_ne (by rw [hgi]; exact hne)).mpr hx

/-- Folding assignment pairs with pairwise-distinct free seats and
pairwise-distinct pending guests preserves the invariant. -/
theorem assignFold_inv (colors : String → Option String) (names : List String) :
    ∀ (pairs : List (String × String)) (st : AssignState),
    AssignInv st names →
    (pairs.map Prod.fst).Nodup →
    (pairs.map Prod.snd).Nodup →
    (∀ p ∈ pairs, ∃ s0 ∈ st.seats, s0.id = p.1 ∧ s0.guestId = none ∧ s0.sectionName ∉ names) →
    (∀ p ∈ pairs, p.2 ∈ st.unassigned) →
    AssignInv (pairs.foldl (assignPair colors) st) names := by
  intro pairs
  induction pairs with
  | nil =>
    intro st hinv _ _ _ _
    exact hinv
  | cons p rest ih =>
    intro st hinv hfnd hsnd hseat hgid
    rw [List.foldl_cons]
    rcases p with ⟨sid, gid⟩
    have hinv' : AssignInv (assignPair colors st (sid, gid)) names :=
      assignPair_inv colors st sid gid names hinv
        (hgid (sid, gid) (List.mem_cons_self _ _))
        (hseat (sid, gid) (List.mem_cons_self _ _))
    simp only [List.map_cons, List.nodup_cons] at hfnd hsnd
    apply ih (assignPair colors st (sid, gid)) hinv' hfnd.2 hsnd.2
    · intro q hq
      obtain ⟨s0, hs0m, hs0id, hs0free, hs0sect⟩ := hseat q (List.mem_cons_of_mem _ hq)
      refine ⟨s0, assignPair_seat_frame colors st sid gid s0 hs0m ?_, hs0id, hs0free, hs0sect⟩
      intro hcc
      have hq1 : q.1 = sid := by rw [← hs0id, hcc]
      exact hfnd.1 (hq1 ▸ List.mem_map_of_mem Prod.fst hq)
    · intro q hq
      apply assignPair_unassigned_frame colors st sid gid q.2
        (hgid q (List.mem_cons_of_mem _ hq))
      intro hcc
      exact hsnd.1 (hcc ▸ List.mem_map_of_mem Prod.snd hq)

/-- Processing one section preserves the invariant for the remaining
sections, provided the section name is not repeated later. -/
theorem assignSection_inv (colors : String → Option String) (st : AssignState)
    (name : String) (names : List String)
    (hinv : AssignInv st (name :: names))
    (hname : name ∉ names) :
    AssignInv (assignSection colors st name) names := by
  unfold assignSection
  apply assignFold_inv colors names _ st (AssignInv_tail st name names hinv)
  · apply List.Nodup.sublist (zip_fst_sublist _ _)
    exact List.Nodup.sublist (List.Sublist.map _ (List.filter_sublist _)) hinv.seatsND
  · apply List.Nodup.sublist (zip_snd_sublist _ _)
    by_cases hc : (sectionPending st name).isEmpty
    · rw [if_pos hc]
      exact List.Nodup.sublist (List.take_sublist _ _) hinv.pendND
    · rw [if_neg hc]
      unfold sectionPending
      exact List.Nodup.sublist (List.filter_sublist _) hinv.pendND
  · intro p hp
    rcases p with ⟨a, b⟩
    obtain ⟨ha, hb⟩ := List.of_mem_zip hp
    rcases List.mem_map.mp ha with ⟨s0, hs0f, rfl⟩
    obtain ⟨hs0m, hcond⟩ := List.mem_filter.mp hs0f
    have hsname : s0.sectionName = name := by simpa using hcond
    refine ⟨s0, hs0m, rfl, ?_, ?_⟩
    · exact hinv.sectFree s0 hs0m (by rw [hsname]; exact List.mem_cons_self _ _)
    · rw [hsname]
      exact hname
  · intro p hp
    rcases p with ⟨a, b⟩
    obtain ⟨ha, hb⟩ := List.of_mem_zip hp
    by_cases hc : (sectionPending st name).isEmpty
    · rw [if_pos hc] at hb
      exact List.mem_of_mem_take hb
    · rw [if_neg hc] at hb
      unfold sectionPending at hb
      exact List.mem_of_mem_filter hb

/-- The whole section loop preserves the invariant when the configured
section names are distinct. -/
theorem assignLoop_inv (colors : String → Option String) :
    ∀ (names : List String) (st : AssignState),
    names.Nodup → AssignInv st names →
    AssignInv (assignLoop colors st names) [] := by
  intro names
  induction names with
  | nil =>
    intro st _ hinv
    exact hinv
  | cons name rest ih =>
    intro st hnd hinv
    show AssignInv
      (if st.unassigned.isEmpty then st
       else assignLoop colors (assignSection colors st name) rest) []
    simp only [List.nodup_cons] at hnd
    by_cases hc : st.unassigned.isEmpty
    · rw [if_pos hc]
      exact AssignInv_nil st (name :: rest) hinv
    · rw [if_neg hc]
      exact ih (assignSection colors st name) hnd.2
        (assignSection_inv colors st name rest hinv hnd.1)

theorem clearSeatLinks_ids (seats : List Seat) :
    (clearSeatLinks seats).map (fun s => s.id) = seats.map (fun s => s.id) := by
  unfold clearSeatLinks
  rw [List.map_map]
  rfl

theorem clearGuestSeatIds_ids (guests : List Guest) :
    (clearGuestSeatIds guests).map (fun g => g.id) = guests.map (fun g => g.id) := by
  unfold clearGuestSeatIds
  rw [List.map_map]
  rfl

/-- The state right after both clearing passes satisfies the invariant for
any list of section names. -/
theorem assignInit_inv (seats : List Seat) (guests : List Guest) (names : List String)
    (hsnd : (seats.map (fun s => s.id)).Nodup)
    (hgnd : (guests.map (fun g => g.id)).Nodup) :
    AssignInv
      ⟨clearSeatLinks seats, clearGuestSeatIds guests,
        (clearGuestSeatIds guests).map (fun g => g.id)⟩ names := by
  refine ⟨⟨?_, ?_⟩, ?_, ?_, ?_, ?_, ?_⟩
  · intro s hs
    rcases List.mem_map.mp hs with ⟨s0, _, rfl⟩
    left
    rfl
  · intro g hg
    rcases List.mem_map.mp hg with ⟨g0, _, rfl⟩
    left
    rfl
  · show ((clearSeatLinks seats).map (fun s => s.id)).Nodup
    rw [clearSeatLinks_ids]
    exact hsnd
  · show ((clearGuestSeatIds guests).map (fun g => g.id)).Nodup
    rw [clearGuestSeatIds_ids]
    exact hgnd
  · show ((clearGuestSeatIds guests).map (fun g => g.id)).Nodup
    rw [clearGuestSeatIds_ids]
    exact hgnd
  · intro g hg _
    rcases List.mem_map.mp hg with ⟨g0, _, rfl⟩
    rfl
  · intro s hs _
    rcases List.mem_map.mp hs with ⟨s0, _, rfl⟩
    rfl

/-- C4: starting from a consistent state with unique seat ids, unique guest
ids and distinct configured section names, both a full roster assignment
(`assignGuestsToSeats`) and a seat swap (`swapGuestSeats`) leave the
collections bidirectionally consistent: every seat naming a guest is named
back by that guest's `seatId`, and every guest naming a seat is named back
by that seat's `guestId`. -/
theorem C4_assignment_and_swap_preserve_bidirectional_linkage
    (seats : List Seat) (guests : List Guest) (sectionNames : List String)
    (colors : String → Option String) (idA idB : String)
    (hsnd : (seats.map (fun s => s.id)).Nodup)
    (hgnd : (guests.map (fun g => g.id)).Nodup)
    (hnames : sectionNames.Nodup)
    (hcons : Consistent seats guests) :
    Consistent (assignGuestsToSeats seats guests sectionNames colors).seats
      (assignGuestsToSeats seats guests sectionNames colors).guests
    ∧ Consistent (swapGuestSeats seats guests idA idB).1
      (swapGuestSeats seats guests idA idB).2 := by
  constructor
  · exact (assignLoop_inv colors sectionNames
      ⟨clearSeatLinks seats, clearGuestSeatIds guests,
        (clearGuestSeatIds guests).map (fun g => g.id)⟩
      hnames (assignInit_inv seats guests sectionNames hsnd hgnd)).cons
  · exact swapGuestSeats_preserves_consistent seats guests idA idB hsnd hgnd hcons

/-- C4 at a concrete state: a two-seat section with a two-guest roster,
then a swap of the two seats. -/
theorem C4_assignment_and_swap_preserve_bidirectional_linkage_witness :
    Consistent (assignGuestsToSeats c4Seats c4Guests ["A"] (fun _ => none)).seats
      (assignGuestsToSeats c4Seats c4Guests ["A"] (fun _ => none)).guests
    ∧ Consistent (swapGuestSeats c4Seats c4Guests "A1" "A2").1
      (swapGuestSeats c4Seats c4Guests "A1" "A2").2 :=
  C4_assignment_and_swap_preserve_bidirectional_linkage c4Seats c4Guests ["A"]
    (fun _ => none) "A1" "A2" (by decide) (by decide) (by decide) ⟨by decide, by decide⟩

end Paizhuo

